import Mathlib

/-!
Verification development for the binator/network packet decoders and textual
address grammars.

The crate is written against the binator parser-combinator substrate, which the
specification treats as an external dependency (an injected capability offering
peek/advance/alternation/repetition).  We embed that substrate shallowly:

* a stream is a list of byte values (`List Nat`, each item < 256 on real input);
* `Parsed` is the three-tier outcome model of the specification: success with
  the remaining stream, recoverable failure (ordered alternation backtracks and
  tries the next branch), and fatal error (aborts the whole decode and is never
  backtracked);
* `try_map` with an `Except.error` result lands in the fatal tier, following the
  specification's description of the validation sites ("these abort parsing,
  they are not try-next-alternative"); a mismatched `is`, an out-of-digits
  `to_digit`/`uint_radix` and an underrun land in the recoverable tier;
* contexts are lists of atoms; `add_atom` prepends an atom to the context of a
  non-success outcome.

All decoder definitions below are transcribed from the crate sources
(`ip_addr.rs`, `ethernet.rs`, `ipv4.rs`, `ipv6.rs`, `tcp.rs`, `udp.rs`); the
reference textual parsers used by the acceptance-equivalence claims are
modelled from the spec (standard-library `from_str` behaviour).
-/

namespace BinatorNet

/-- Error atoms produced by the decoders and by the modelled substrate. -/
inductive Atom where
  | endOfStream : Atom
  | isNot (expected found : Nat) : Atom
  | digit : Atom
  | uintRadix : Atom
  | ipv4Version (v : Nat) : Atom
  | ipv4IHL (v : Nat) : Atom
  | ipv6Version (v : Nat) : Atom
  | dataOffSet : Atom
  | mssLen : Atom
  | windowScaleLen : Atom
  | sackPermittedLen : Atom
  | sackLen (len : Nat) : Atom
  | timestampsLen : Atom
  | notAnOctet : Atom
  | leadingZero : Atom
deriving DecidableEq, Repr

/-- A context is the list of atoms accumulated along a failing parse. -/
abbrev Ctx := List Atom

/-- Three-tier parse outcome: success, recoverable failure, fatal error. -/
inductive Parsed (τ : Type) where
  | success (token : τ) (stream : List Nat) : Parsed τ
  | failure (ctx : Ctx) : Parsed τ
  | error (ctx : Ctx) : Parsed τ
deriving DecidableEq, Repr

/-- A parser consumes a prefix of a byte stream. -/
def Parser (τ : Type) : Type := List Nat → Parsed τ

/-- Parser returning a value without consuming input. -/
def pure' (a : τ) : Parser τ := fun s => .success a s

/-- Sequencing: run `p`, feed its token to `f`; failures and errors propagate. -/
def pbind (p : Parser α) (f : α → Parser β) : Parser β := fun s =>
  match p s with
  | .success a s => f a s
  | .failure c => .failure c
  | .error c => .error c

/-- Mapping over the token of a parser. -/
def pmap (p : Parser α) (f : α → β) : Parser β := fun s =>
  match p s with
  | .success a s => .success (f a) s
  | .failure c => .failure c
  | .error c => .error c

/-- Fallible mapping (binator `try_map`).  An `Except.error` result is a fatal
error: the specification's validation sites abort the whole decode rather than
backtracking. -/
def tryMap (p : Parser α) (f : α → Except Ctx β) : Parser β := fun s =>
  match p s with
  | .success a s =>
    match f a with
    | .ok b => .success b s
    | .error c => .error c
  | .failure c => .failure c
  | .error c => .error c

/-- Ordered alternation: on recoverable failure of `p`, try `q` from the same
position; fatal errors propagate without backtracking. -/
def orElse' (p q : Parser α) : Parser α := fun s =>
  match p s with
  | .success a s => .success a s
  | .failure _ => q s
  | .error c => .error c

/-- Optional parser (binator `opt`): recoverable failure yields `none` with the
input untouched; fatal errors propagate. -/
def opt (p : Parser α) : Parser (Option α) := fun s =>
  match p s with
  | .success a s => .success (some a) s
  | .failure _ => .success none s
  | .error c => .error c

/-- Annotate the context of a non-success outcome (binator `add_atom`). -/
def addAtom (p : Parser α) (a : Atom) : Parser α := fun s =>
  match p s with
  | .success t s => .success t s
  | .failure c => .failure (a :: c)
  | .error c => .error (a :: c)

/-- Consume one item (binator `octet`/`any`); underrun is a recoverable
failure. -/
def octet : Parser Nat := fun s =>
  match s with
  | [] => .failure [Atom.endOfStream]
  | b :: s => .success b s

/-- Expect one specific item (binator `is`). -/
def is (b : Nat) : Parser Nat := fun s =>
  match s with
  | [] => .failure [Atom.endOfStream]
  | x :: s => if x = b then .success x s else .failure [Atom.isNot b x]

/-- Big-endian 16-bit read. -/
def u16_be : Parser Nat :=
  pbind octet fun a => pmap octet fun b => 256 * a + b

/-- Big-endian 32-bit read. -/
def u32_be : Parser Nat :=
  pbind u16_be fun a => pmap u16_be fun b => 65536 * a + b

/-- Consume exactly `n` items and return them (binator `octet.fill()`, and the
`any.drop().fold_bounds(n).span()` pattern used for option spans). -/
def takeN : Nat → Parser (List Nat)
  | 0 => pure' []
  | n + 1 => pbind octet fun b => pmap (takeN n) fun l => b :: l

/-- Repeat `p` exactly `n` times (binator `fill` on a sub-parser). -/
def fillP (p : Parser α) : Nat → Parser (List α)
  | 0 => pure' []
  | n + 1 => pbind p fun a => pmap (fillP p n) fun l => a :: l

/-- Split one byte into its top `8-n` bits and bottom `n` bits (binator
`nbit`): `NBit::FOUR` is `nbit 4`, `NBit::FIVE` is `nbit 5`. -/
def nbit (n : Nat) : Parser (Nat × Nat) :=
  pmap octet fun b => (b >>> n, b % 2 ^ n)

/-! ## Code tables (`ether_type.rs`, `ip_protocol.rs`)

Open numeric enumerations: a raw code wrapped as-is. -/

/-- EtherType code (the `EtherType` newtype over `u16`). -/
abbrev EtherType := Nat

/-- VLAN-tagged frame EtherType constant. -/
def EtherType.VLAN : EtherType := 0x8100

/-- IPv4 EtherType constant. -/
def EtherType.IPV4 : EtherType := 0x0800

/-- IP protocol code (the `IPProtocol` newtype over `u8`). -/
abbrev IPProtocol := Nat

/-- ICMP protocol number. -/
def IPProtocol.ICMP : IPProtocol := 0x01

/-- ICMPv6 protocol number. -/
def IPProtocol.ICMP_6 : IPProtocol := 0x3A

/-- EtherType field parser (`ether_type.rs`): a big-endian `u16` wrapped into
the open enumeration. -/
def ether_type : Parser EtherType := u16_be

/-- IP protocol field parser (`ip_protocol.rs`): one octet wrapped into the
open enumeration. -/
def ip_protocol : Parser IPProtocol := octet

/-! ## UDP (`udp.rs`) -/

/-- Decoded UDP header. -/
structure UdpHeader where
  source_port : Nat
  dest_port : Nat
  length : Nat
  checksum : Nat
deriving DecidableEq, Repr

/-- UDP header parser: four big-endian 16-bit fields, no validation. -/
def udp_header : Parser UdpHeader :=
  pbind u16_be fun source_port =>
  pbind u16_be fun dest_port =>
  pbind u16_be fun length =>
  pmap u16_be fun checksum =>
    { source_port, dest_port, length, checksum }

/-! ## Ethernet (`ethernet.rs`) -/

/-- Decoded Ethernet frame. -/
structure EthernetFrame where
  destination : List Nat
  source : List Nat
  ether_type : EtherType
  tci : Option Nat
deriving DecidableEq, Repr

/-- Ethernet frame parser: 6+6 MAC bytes, a type field, and one optional level
of VLAN-tag unwrapping when the first type field is 0x8100. -/
def ethernet_frame : Parser EthernetFrame :=
  pbind (takeN 6) fun destination =>
  pbind (takeN 6) fun source =>
  pbind ether_type fun tmp_ether_type =>
    if tmp_ether_type = EtherType.VLAN then
      pbind u16_be fun tci =>
      pmap ether_type fun ether_type =>
        { destination, source, ether_type, tci := some tci }
    else
      pure' { destination, source, ether_type := tmp_ether_type, tci := none }

/-! ## IPv4 (`ipv4.rs`) -/

/-- IPv4 address as four octet values. -/
abbrev Ipv4Addr := Nat × Nat × Nat × Nat

/-- Build an address from four consecutive bytes (`Ipv4Addr::from([u8; 4])`). -/
def ipv4AddrOfBytes (l : List Nat) : Ipv4Addr :=
  match l with
  | [a, b, c, d] => (a, b, c, d)
  | _ => (0, 0, 0, 0)

/-- Decoded IPv4 header. -/
structure IPv4Header where
  version : Nat
  ihl : Nat
  tos : Nat
  length : Nat
  id : Nat
  flags : Nat
  fragment_offset : Nat
  ttl : Nat
  protocol : IPProtocol
  chksum : Nat
  source_addr : Ipv4Addr
  dest_addr : Ipv4Addr
  options : List Nat
deriving DecidableEq, Repr

/-- IPv4 header parser: version/IHL nibbles with fatal validation, the fixed
fields, and an `(ihl-5)*4`-byte opaque options span. -/
def ipv4_header : Parser IPv4Header :=
  pbind
    (tryMap (nbit 4) fun vi =>
      if vi.1 ≠ 4 then .error [Atom.ipv4Version vi.1]
      else if vi.2 < 5 then .error [Atom.ipv4IHL vi.2]
      else .ok vi)
    fun vi =>
  pbind octet fun tos =>
  pbind u16_be fun length =>
  pbind u16_be fun id =>
  pbind (nbit 5) fun ff =>
  pbind octet fun frag1 =>
  pbind octet fun ttl =>
  pbind ip_protocol fun protocol =>
  pbind u16_be fun chksum =>
  pbind (takeN 4) fun src =>
  pbind (takeN 4) fun dst =>
  pmap (takeN ((vi.2 - 5) * 4)) fun options =>
    { version := vi.1, ihl := vi.2, tos, length, id,
      flags := ff.1, fragment_offset := 256 * ff.2 + frag1, ttl, protocol,
      chksum, source_addr := ipv4AddrOfBytes src, dest_addr := ipv4AddrOfBytes dst,
      options }

/-! ## IPv6 (`ipv6.rs`) -/

/-- IPv6 address as eight 16-bit group values. -/
abbrev Ipv6Addr := List Nat

/-- Build an address from 16 consecutive bytes as big-endian pairs
(`Ipv6Addr::from([u8; 16])`). -/
def ipv6AddrOfBytes : List Nat → Ipv6Addr
  | a :: b :: rest => (256 * a + b) :: ipv6AddrOfBytes rest
  | _ => []

/-- Decoded IPv6 header. -/
structure IPv6Header where
  version : Nat
  ds : Nat
  ecn : Nat
  flow_label : Nat
  length : Nat
  next_header : IPProtocol
  hop_limit : Nat
  source_addr : Ipv6Addr
  dest_addr : Ipv6Addr
deriving DecidableEq, Repr

/-- IPv6 header parser: version nibble with fatal validation, traffic-class and
flow-label bit splitting, fixed fields, 16+16 address bytes. -/
def ipv6_header : Parser IPv6Header :=
  pbind
    (tryMap (nbit 4) fun vt =>
      if vt.1 = 6 then .ok vt else .error [Atom.ipv6Version vt.1])
    fun vt =>
  pbind (nbit 4) fun tf =>
  pbind octet fun flow1 =>
  pbind octet fun flow2 =>
  pbind u16_be fun length =>
  pbind ip_protocol fun next_header =>
  pbind octet fun hop_limit =>
  pbind (takeN 16) fun src =>
  pmap (takeN 16) fun dst =>
    { version := vt.1,
      ds := (vt.2 <<< 2) + (tf.1 >>> 2),
      ecn := tf.1 % 4,
      flow_label := 65536 * tf.2 + 256 * flow1 + flow2,
      length, next_header, hop_limit,
      source_addr := ipv6AddrOfBytes src, dest_addr := ipv6AddrOfBytes dst }

/-! ## TCP (`tcp.rs`) -/

/-- TCP flags word: top 4 bits data-offset, low 12 bits named control flags. -/
structure TcpFlags where
  raw : Nat
deriving DecidableEq, Repr

/-- The twelve named control-flag bits of the TCP flags word. -/
inductive TcpFlagName where
  | reserved_0 | reserved_1 | reserved_2 | ns
  | cwr | ece | urg | ack | psh | rst | syn | fin
deriving DecidableEq, Repr

/-- Bit position of each named flag (the `tcp_flags!` macro table). -/
def flagPos : TcpFlagName → Nat
  | .reserved_0 => 11
  | .reserved_1 => 10
  | .reserved_2 => 9
  | .ns => 8
  | .cwr => 7
  | .ece => 6
  | .urg => 5
  | .ack => 4
  | .psh => 3
  | .rst => 2
  | .syn => 1
  | .fin => 0

/-- Generic named-flag getter: `self.raw & 1 << pos != 0`. -/
def TcpFlags.get_flag (f : TcpFlags) (n : TcpFlagName) : Bool :=
  f.raw &&& (1 <<< flagPos n) ≠ 0

/-- Generic named-flag setter: `raw |= 1 << pos` or `raw &= !(1 << pos)`. -/
def TcpFlags.set_flag (f : TcpFlags) (n : TcpFlagName) (state : Bool) : TcpFlags :=
  if state then { raw := f.raw ||| (1 <<< flagPos n) }
  else { raw := f.raw &&& (65535 ^^^ (1 <<< flagPos n)) }

/-- Data-offset getter: `(self.raw >> 12) as u8`. -/
def TcpFlags.get_data_offset (f : TcpFlags) : Nat :=
  (f.raw >>> 12) % 256

/-- Data-offset setter: succeeds exactly when `4 < n < 16`, otherwise leaves
the flags unchanged and reports `Err(n)`. -/
def TcpFlags.set_data_offset (f : TcpFlags) (n : Nat) : TcpFlags × Except Nat Nat :=
  if 4 < n ∧ n < 16 then
    ({ raw := (f.raw &&& (65535 >>> 4)) ||| (n <<< 12) }, .ok n)
  else
    (f, .error n)

/-- Decoded TCP header. -/
structure TcpHeader where
  source_port : Nat
  dest_port : Nat
  sequence_no : Nat
  ack_no : Nat
  flags : TcpFlags
  window : Nat
  checksum : Nat
  urgent_pointer : Nat
  options : List Nat
deriving DecidableEq, Repr

/-- Flags-word parser with the fatal data-offset validation. -/
def tcp_flags : Parser TcpFlags :=
  tryMap (pmap u16_be TcpFlags.mk) fun flags =>
    if flags.get_data_offset ≥ 5 then .ok flags
    else .error [Atom.dataOffSet]

/-- TCP header parser: fixed fields plus a `(data_offset-5)*4`-byte opaque
options span. -/
def tcp_header : Parser TcpHeader :=
  pbind u16_be fun source_port =>
  pbind u16_be fun dest_port =>
  pbind u32_be fun sequence_no =>
  pbind u32_be fun ack_no =>
  pbind tcp_flags fun flags =>
  pbind u16_be fun window =>
  pbind u16_be fun checksum =>
  pbind u16_be fun urgent_pointer =>
  pmap (takeN ((flags.get_data_offset - 5) * 4)) fun options =>
    { source_port, dest_port, sequence_no, ack_no, flags, window, checksum,
      urgent_pointer, options }

/-- SACK payload: 2, 4, 6 or 8 big-endian 32-bit words. -/
inductive Sack where
  | A (ws : List Nat)
  | B (ws : List Nat)
  | C (ws : List Nat)
  | D (ws : List Nat)
deriving DecidableEq, Repr

/-- A decoded TCP option. -/
inductive TcpOption where
  | EndOfOption
  | Noop
  | MaximumSegmentSize (v : Nat)
  | WindowScale (v : Nat)
  | SackPermitted
  | Sack (s : Sack)
  | Timestamps (ts : Nat × Nat)
  | Unknown (u : Nat × List Nat)
deriving DecidableEq, Repr

/-- No-operation option body (consumes nothing). -/
def noop : Parser TcpOption := pure' .Noop

/-- Maximum-segment-size option body: length octet must equal 4. -/
def mss : Parser TcpOption :=
  pbind (addAtom (is 4) Atom.mssLen) fun _ =>
  pmap u16_be fun v => .MaximumSegmentSize v

/-- Window-scale option body: length octet must equal 3. -/
def window_scale : Parser TcpOption :=
  pbind (addAtom (is 3) Atom.windowScaleLen) fun _ =>
  pmap octet fun v => .WindowScale v

/-- SACK-permitted option body: length octet must equal 2, no payload. -/
def sack_permitted : Parser TcpOption :=
  pmap (addAtom (is 2) Atom.sackPermittedLen) fun _ => .SackPermitted

/-- SACK option body: a length octet dispatched over {10, 18, 26, 34}; any
other length is reported as a recoverable failure carrying that length. -/
def sack : Parser TcpOption :=
  pbind octet fun len =>
  pmap
    (fun s =>
      if len = 10 then pmap (fillP u32_be 2) Sack.A s
      else if len = 18 then pmap (fillP u32_be 4) Sack.B s
      else if len = 26 then pmap (fillP u32_be 6) Sack.C s
      else if len = 34 then pmap (fillP u32_be 8) Sack.D s
      else .failure [Atom.sackLen len])
    fun sk => .Sack sk

/-- Timestamps option body: length octet must equal 10, then two 32-bit words. -/
def tipestamps : Parser TcpOption :=
  pbind (addAtom (is 10) Atom.timestampsLen) fun _ =>
  pmap (pbind u32_be fun a => pmap u32_be fun b => (a, b)) fun ts => .Timestamps ts

/-- Unknown option body: a length octet then exactly that many payload bytes
captured as an opaque span. -/
def unknown (op : Nat) : Parser TcpOption :=
  pbind octet fun len =>
  pmap (takeN len) fun span => .Unknown (op, span)

/-- One TCP option: an option-code octet dispatched over the known codes. -/
def tcp_option : Parser TcpOption :=
  pbind octet fun op =>
  fun s =>
    if op = 0 then .success .EndOfOption s
    else if op = 1 then noop s
    else if op = 2 then mss s
    else if op = 3 then window_scale s
    else if op = 4 then sack_permitted s
    else if op = 5 then sack s
    else if op = 8 then tipestamps s
    else unknown op s

/-- Unbounded repetition (binator `fold_bounds(..)`): repeat until the first
recoverable failure, collecting tokens; fatal errors propagate.  Fuel bounds
the recursion; every `tcp_option` success consumes at least one byte, so
`length + 1` steps always reach the terminating failure. -/
def foldMany (p : Parser α) : Nat → List α → Parser (List α)
  | 0, acc => fun s => .success acc.reverse s
  | fuel + 1, acc => fun s =>
    match p s with
    | .success a s => foldMany p fuel (a :: acc) s
    | .failure _ => .success acc.reverse s
    | .error c => .error c

/-- TCP options list parser over an options span. -/
def tcp_options : Parser (List TcpOption) := fun s =>
  foldMany tcp_option (s.length + 1) [] s

/-! ## Textual IPv4 grammar (`ip_addr.rs`) -/

/-- ASCII decimal digit test. -/
def isDigit (c : Nat) : Bool := 48 ≤ c ∧ c ≤ 57

/-- One ASCII decimal digit, yielding its value (binator `to_digit`). -/
def to_digit : Parser Nat := fun s =>
  match s with
  | [] => .failure [Atom.endOfStream]
  | c :: s => if isDigit c then .success (c - 48) s else .failure [Atom.digit]

/-- Branch 250-255: `"25" %x30-35`, with checked addition; overflow is the
fatal `NotAnOctet` error. -/
def dec_octet_0 : Parser Nat :=
  tryMap
    (pbind (is 50) fun _ => pbind (is 53) fun _ => pmap to_digit fun c => c)
    fun c =>
      if 250 + c ≤ 255 then .ok (250 + c) else .error [Atom.notAnOctet]

/-- Branch 200-249: `"2" DIGIT DIGIT`, with checked addition. -/
def dec_octet_1 : Parser Nat :=
  tryMap
    (pbind (is 50) fun _ => pbind to_digit fun b => pmap to_digit fun c => (b, c))
    fun bc =>
      if 200 + (bc.1 * 10 + bc.2) ≤ 255 then .ok (200 + (bc.1 * 10 + bc.2))
      else .error [Atom.notAnOctet]

/-- Branch 100-199: `"1" DIGIT DIGIT`, with checked addition. -/
def dec_octet_2 : Parser Nat :=
  tryMap
    (pbind (is 49) fun _ => pbind to_digit fun b => pmap to_digit fun c => (b, c))
    fun bc =>
      if 100 + (bc.1 * 10 + bc.2) ≤ 255 then .ok (100 + (bc.1 * 10 + bc.2))
      else .error [Atom.notAnOctet]

/-- Branch 10-99: two digits; a leading zero is the fatal `LeadingZero`
error. -/
def dec_octet_3 : Parser Nat :=
  tryMap
    (pbind to_digit fun a => pmap to_digit fun b => (a, b))
    fun ab =>
      if ab.1 = 0 then .error [Atom.leadingZero] else .ok (ab.1 * 10 + ab.2)

/-- Branch 0-9: a single digit. -/
def dec_octet_4 : Parser Nat := to_digit

/-- Decimal octet: the five branches in strict priority order. -/
def dec_octet : Parser Nat :=
  orElse' dec_octet_0 (orElse' dec_octet_1 (orElse' dec_octet_2
    (orElse' dec_octet_3 dec_octet_4)))

/-- Dotted-quad textual IPv4 address parser. -/
def ipv4_address : Parser Ipv4Addr :=
  pbind dec_octet fun a =>
  pbind (is 46) fun _ =>
  pbind dec_octet fun b =>
  pbind (is 46) fun _ =>
  pbind dec_octet fun c =>
  pbind (is 46) fun _ =>
  pmap dec_octet fun d => (a, b, c, d)

/-! ## Textual IPv6 grammar (`ip_addr.rs`) -/

/-- Value of an ASCII hexadecimal digit, case-insensitive. -/
def hexDigit? (c : Nat) : Option Nat :=
  if 48 ≤ c ∧ c ≤ 57 then some (c - 48)
  else if 65 ≤ c ∧ c ≤ 70 then some (c - 55)
  else if 97 ≤ c ∧ c ≤ 102 then some (c - 87)
  else none

/-- ASCII hexadecimal digit test. -/
def isHexDigit (c : Nat) : Bool := (hexDigit? c).isSome

/-- Value of a list of hexadecimal digits. -/
def hexVal (l : List Nat) : Nat :=
  l.foldl (fun acc c => 16 * acc + ((hexDigit? c).getD 0)) 0

/-- `h16 = 1*4HEXDIG` via `uint_radix(1..4, Radix::HEX)`: greedily consume up
to four hexadecimal digits and yield their value. -/
def h16 : Parser Nat := fun s =>
  let run := (s.takeWhile isHexDigit).take 4
  match run with
  | [] => .failure [Atom.uintRadix]
  | _ => .success (hexVal run) (s.drop run.length)

/-- `h16 ":"`. -/
def h16_colon : Parser Nat :=
  pbind h16 fun v => pmap (is 58) fun _ => v

/-- `":" h16`. -/
def colon_h16 : Parser Nat :=
  pbind (is 58) fun _ => h16

/-- `"::"`. -/
def double_colon : Parser Unit :=
  pbind (is 58) fun _ => pmap (is 58) fun _ => ()

/-- `ls32 = ( h16 ":" h16 ) / IPv4address`, the IPv4 reinterpreted as two
big-endian 16-bit groups. -/
def ls32 : Parser (Nat × Nat) :=
  orElse'
    (pbind h16 fun g => pmap colon_h16 fun h => (g, h))
    (pmap ipv4_address fun x =>
      (256 * x.1 + x.2.1, 256 * x.2.2.1 + x.2.2.2))

/-- Group constructor mirroring `Ipv6Addr::new`. -/
def ipv6New (a b c d e f g h : Nat) : Ipv6Addr := [a, b, c, d, e, f, g, h]

/-- Alternative 1: `6( h16 ":" ) ls32`. -/
def ipv6_address_0 : Parser Ipv6Addr :=
  pbind h16_colon fun a => pbind h16_colon fun b => pbind h16_colon fun c =>
  pbind h16_colon fun d => pbind h16_colon fun e => pbind h16_colon fun f =>
  pmap ls32 fun gh => ipv6New a b c d e f gh.1 gh.2

/-- Alternative 2: `"::" 5( h16 ":" ) ls32`. -/
def ipv6_address_1 : Parser Ipv6Addr :=
  pbind double_colon fun _ =>
  pbind h16_colon fun b => pbind h16_colon fun c => pbind h16_colon fun d =>
  pbind h16_colon fun e => pbind h16_colon fun f =>
  pmap ls32 fun gh => ipv6New 0 b c d e f gh.1 gh.2

/-- Alternative 3: `[ h16 ] "::" 4( h16 ":" ) ls32`. -/
def ipv6_address_2 : Parser Ipv6Addr :=
  pbind (opt h16) fun a =>
  pbind double_colon fun _ =>
  pbind h16_colon fun c => pbind h16_colon fun d => pbind h16_colon fun e =>
  pbind h16_colon fun f =>
  pmap ls32 fun gh => ipv6New (a.getD 0) 0 c d e f gh.1 gh.2

/-- Alternative 4: `[ *1( h16 ":" ) h16 ] "::" 3( h16 ":" ) ls32`. -/
def ipv6_address_3 : Parser Ipv6Addr :=
  pbind (opt h16) fun a =>
  pbind (opt colon_h16) fun b =>
  pbind double_colon fun _ =>
  pbind h16_colon fun d => pbind h16_colon fun e => pbind h16_colon fun f =>
  pmap ls32 fun gh => ipv6New (a.getD 0) (b.getD 0) 0 d e f gh.1 gh.2

/-- Alternative 5: `[ *2( h16 ":" ) h16 ] "::" 2( h16 ":" ) ls32`. -/
def ipv6_address_4 : Parser Ipv6Addr :=
  pbind (opt h16) fun a =>
  pbind (opt colon_h16) fun b =>
  pbind (opt colon_h16) fun c =>
  pbind double_colon fun _ =>
  pbind h16_colon fun e => pbind h16_colon fun f =>
  pmap ls32 fun gh => ipv6New (a.getD 0) (b.getD 0) (c.getD 0) 0 e f gh.1 gh.2

/-- Alternative 6: `[ *3( h16 ":" ) h16 ] "::" h16 ":" ls32`. -/
def ipv6_address_5 : Parser Ipv6Addr :=
  pbind (opt h16) fun a =>
  pbind (opt colon_h16) fun b =>
  pbind (opt colon_h16) fun c =>
  pbind (opt colon_h16) fun d =>
  pbind double_colon fun _ =>
  pbind h16_colon fun f =>
  pmap ls32 fun gh => ipv6New (a.getD 0) (b.getD 0) (c.getD 0) (d.getD 0) 0 f gh.1 gh.2

/-- Alternative 7: `[ *4( h16 ":" ) h16 ] "::" ls32`. -/
def ipv6_address_6 : Parser Ipv6Addr :=
  pbind (opt h16) fun a =>
  pbind (opt colon_h16) fun b =>
  pbind (opt colon_h16) fun c =>
  pbind (opt colon_h16) fun d =>
  pbind (opt colon_h16) fun e =>
  pbind double_colon fun _ =>
  pmap ls32 fun gh =>
    ipv6New (a.getD 0) (b.getD 0) (c.getD 0) (d.getD 0) (e.getD 0) 0 gh.1 gh.2

/-- Alternative 8: `[ *5( h16 ":" ) h16 ] "::" h16`. -/
def ipv6_address_7 : Parser Ipv6Addr :=
  pbind (opt h16) fun a =>
  pbind (opt colon_h16) fun b =>
  pbind (opt colon_h16) fun c =>
  pbind (opt colon_h16) fun d =>
  pbind (opt colon_h16) fun e =>
  pbind (opt colon_h16) fun f =>
  pbind double_colon fun _ =>
  pmap h16 fun h =>
    ipv6New (a.getD 0) (b.getD 0) (c.getD 0) (d.getD 0) (e.getD 0) (f.getD 0) 0 h

/-- Alternative 9: `[ *6( h16 ":" ) h16 ] "::"`. -/
def ipv6_address_8 : Parser Ipv6Addr :=
  pbind (opt h16) fun a =>
  pbind (opt colon_h16) fun b =>
  pbind (opt colon_h16) fun c =>
  pbind (opt colon_h16) fun d =>
  pbind (opt colon_h16) fun e =>
  pbind (opt colon_h16) fun f =>
  pbind (opt colon_h16) fun g =>
  pmap double_colon fun _ =>
    ipv6New (a.getD 0) (b.getD 0) (c.getD 0) (d.getD 0) (e.getD 0) (f.getD 0) (g.getD 0) 0

/-- Compressed-notation textual IPv6 parser: the nine alternatives in order. -/
def ipv6_address : Parser Ipv6Addr :=
  orElse' ipv6_address_0 (orElse' ipv6_address_1 (orElse' ipv6_address_2
    (orElse' ipv6_address_3 (orElse' ipv6_address_4 (orElse' ipv6_address_5
      (orElse' ipv6_address_6 (orElse' ipv6_address_7 ipv6_address_8)))))))

/-! ## Reference textual parsers

Modelled from the spec: the "reference standard-library implementation" the
acceptance-equivalence property compares against is not part of this crate; the
definitions below reproduce the standard library's `from_str` behaviour for
IPv4 and IPv6 address literals (maximal digit runs with digit-count caps,
leading-zero rejection for decimal octets, head/`::`/tail group reading with an
embedded trailing IPv4 form). -/

/-- Modelled from the spec: the reference decimal-octet reader (radix 10, at
most 3 digits, no leading zero, value at most 255); consumes the maximal digit
run. -/
def refReadOctet (s : List Nat) : Option (Nat × List Nat) :=
  let run := s.takeWhile isDigit
  if run.length = 0 then none
  else if 3 < run.length then none
  else if run.headI = 48 ∧ 1 < run.length then none
  else
    let v := run.foldl (fun acc c => 10 * acc + (c - 48)) 0
    if 255 < v then none else some (v, s.drop run.length)

/-- Modelled from the spec: the reference dotted-quad reader (no end-of-input
requirement; used both standalone and embedded in IPv6). -/
def refReadIpv4 (s : List Nat) : Option (Ipv4Addr × List Nat) :=
  match refReadOctet s with
  | none => none
  | some (a, r) =>
    match r with
    | [] => none
    | x :: r =>
      if x ≠ 46 then none else
      match refReadOctet r with
      | none => none
      | some (b, r) =>
        match r with
        | [] => none
        | y :: r =>
          if y ≠ 46 then none else
          match refReadOctet r with
          | none => none
          | some (c, r) =>
            match r with
            | [] => none
            | z :: r =>
              if z ≠ 46 then none else
              match refReadOctet r with
              | none => none
              | some (d, r) => some ((a, b, c, d), r)

/-- Modelled from the spec: the reference IPv4 `from_str`, requiring the whole
input to be consumed. -/
def refIpv4 (s : List Nat) : Option Ipv4Addr :=
  match refReadIpv4 s with
  | some (v, []) => some v
  | _ => none

/-- Modelled from the spec: the reference 16-bit group reader (radix 16, at
most 4 digits, leading zeros allowed); consumes the maximal digit run. -/
def refReadH16 (s : List Nat) : Option (Nat × List Nat) :=
  let run := s.takeWhile isHexDigit
  if run.length = 0 then none
  else if 4 < run.length then none
  else some (hexVal run, s.drop run.length)

/-- Modelled from the spec: one reference group read with its leading `:`
separator when not in first position. -/
def refSep (first : Bool) (f : List Nat → Option (α × List Nat))
    (s : List Nat) : Option (α × List Nat) :=
  if first then f s
  else
    match s with
    | [] => none
    | x :: r => if x = 58 then f r else none

/-- Modelled from the spec: the reference group-sequence reader.  At each
position with at least two slots left it first tries a trailing embedded IPv4
address; group reading stops at the first position that fails.  Returns the
groups read, whether an embedded IPv4 was taken, and the rest. -/
def refReadGroups : Nat → Bool → List Nat → (List Nat × Bool × List Nat)
  | 0, _, s => ([], false, s)
  | limit + 1, first, s =>
    match
      (if limit ≥ 1 then
        match refSep first refReadIpv4 s with
        | some (x, r) =>
          some ([256 * x.1 + x.2.1, 256 * x.2.2.1 + x.2.2.2], r)
        | none => none
      else none : Option (List Nat × List Nat))
    with
    | some (gs, r) => (gs, true, r)
    | none =>
      match refSep first refReadH16 s with
      | none => ([], false, s)
      | some (g, r) =>
        match refReadGroups limit false r with
        | (gs, ipv4, r) => (g :: gs, ipv4, r)

/-- Modelled from the spec: the reference IPv6 reader: head groups, then an
optional `"::"` with tail groups limited to `8 - (head + 1)`, zero-filling the
gap. -/
def refReadIpv6 (s : List Nat) : Option (Ipv6Addr × List Nat) :=
  match refReadGroups 8 true s with
  | (head, headIpv4, r) =>
    if head.length = 8 then some (head, r)
    else if headIpv4 then none
    else
      match r with
      | x :: y :: r =>
        if x = 58 ∧ y = 58 then
          match refReadGroups (8 - (head.length + 1)) true r with
          | (tail, _, r) =>
            some (head ++ List.replicate (8 - head.length - tail.length) 0 ++ tail, r)
        else none
      | _ => none

/-- Modelled from the spec: the reference IPv6 `from_str`, requiring the whole
input to be consumed. -/
def refIpv6 (s : List Nat) : Option Ipv6Addr :=
  match refReadIpv6 s with
  | some (v, []) => some v
  | _ => none

/-! ## Combinator inversion lemmas -/

theorem pbind_success_iff {p : Parser α} {f : α → Parser β} {s r : List Nat} {b : β} :
    pbind p f s = .success b r ↔ ∃ a m, p s = .success a m ∧ f a m = .success b r := by
  unfold pbind
  cases h : p s with
  | success a m =>
    constructor
    · intro hf
      exact ⟨a, m, rfl, hf⟩
    · rintro ⟨a', m', ha, hf⟩
      cases ha
      exact hf
  | failure c => simp
  | error c => simp

theorem pmap_success_iff {p : Parser α} {f : α → β} {s r : List Nat} {b : β} :
    pmap p f s = .success b r ↔ ∃ a, p s = .success a r ∧ b = f a := by
  unfold pmap
  cases h : p s with
  | success a m =>
    constructor
    · rintro hv
      cases hv
      exact ⟨a, rfl, rfl⟩
    · rintro ⟨a', ha, hb⟩
      cases ha
      simp [hb]
  | failure c => simp
  | error c => simp

theorem tryMap_success_iff {p : Parser α} {f : α → Except Ctx β} {s r : List Nat} {b : β} :
    tryMap p f s = .success b r ↔ ∃ a, p s = .success a r ∧ f a = .ok b := by
  unfold tryMap
  cases h : p s with
  | success a m =>
    cases hf : f a with
    | ok v =>
      simp only [hf, Parsed.success.injEq]
      constructor
      · rintro ⟨hv, hm⟩
        subst hm
        exact ⟨a, ⟨rfl, rfl⟩, by rw [hf, hv]⟩
      · rintro ⟨a', ⟨ha, hm⟩, hb⟩
        subst ha hm
        rw [hf] at hb
        cases hb
        exact ⟨rfl, rfl⟩
    | error c =>
      simp only [hf]
      constructor
      · rintro hv
        cases hv
      · rintro ⟨a', ha, hb⟩
        cases ha
        rw [hf] at hb
        cases hb
  | failure c => simp
  | error c => simp

theorem orElse'_success_iff {p q : Parser α} {s r : List Nat} {v : α} :
    orElse' p q s = .success v r ↔
      p s = .success v r ∨ (∃ c, p s = .failure c ∧ q s = .success v r) := by
  unfold orElse'
  cases h : p s <;> simp

theorem octet_success_iff {s r : List Nat} {b : Nat} :
    octet s = .success b r ↔ s = b :: r := by
  unfold octet
  cases s with
  | nil => simp
  | cons x l =>
    constructor
    · rintro hv
      cases hv
      rfl
    · rintro hv
      cases hv
      rfl

theorem is_success_iff {c : Nat} {s r : List Nat} {t : Nat} :
    is c s = .success t r ↔ s = c :: r ∧ t = c := by
  unfold is
  cases s with
  | nil => simp
  | cons x l =>
    by_cases h : x = c
    · subst h
      simp only [if_pos rfl]
      constructor
      · rintro hv
        cases hv
        exact ⟨rfl, rfl⟩
      · rintro ⟨h1, h2⟩
        cases h1
        cases h2
        rfl
    · simp only [if_neg h]
      constructor
      · rintro hv
        cases hv
      · rintro ⟨h1, _⟩
        cases h1
        exact absurd rfl h

theorem to_digit_success_iff {s r : List Nat} {d : Nat} :
    to_digit s = .success d r ↔ ∃ c, s = c :: r ∧ isDigit c ∧ d = c - 48 := by
  unfold to_digit
  cases s with
  | nil => simp
  | cons x l =>
    by_cases h : isDigit x
    · simp only [if_pos h]
      constructor
      · rintro hv
        cases hv
        exact ⟨x, rfl, h, rfl⟩
      · rintro ⟨c, hc, hd1, hd2⟩
        cases hc
        simp [hd2]
    · simp only [if_neg h]
      constructor
      · rintro hv
        cases hv
      · rintro ⟨c, hc, hd1, _⟩
        cases hc
        exact absurd hd1 h

theorem u16_be_success_iff {s r : List Nat} {t : Nat} :
    u16_be s = .success t r ↔ ∃ a b, s = a :: b :: r ∧ t = 256 * a + b := by
  unfold u16_be
  simp only [pbind_success_iff, pmap_success_iff, octet_success_iff]
  constructor
  · rintro ⟨a, m, hm, b, hb, ht⟩
    subst hm
    exact ⟨a, b, by rw [hb], ht⟩
  · rintro ⟨a, b, hs, ht⟩
    exact ⟨a, b :: r, hs, b, rfl, ht⟩

theorem u32_be_success_iff {s r : List Nat} {t : Nat} :
    u32_be s = .success t r ↔
      ∃ a b c d, s = a :: b :: c :: d :: r ∧
        t = 65536 * (256 * a + b) + (256 * c + d) := by
  unfold u32_be
  simp only [pbind_success_iff, pmap_success_iff, u16_be_success_iff]
  constructor
  · rintro ⟨x, m, ⟨a, b, hm, hx⟩, y, ⟨c, d, hm2, hy⟩, ht⟩
    subst hm hm2 hx hy
    exact ⟨a, b, c, d, rfl, ht⟩
  · rintro ⟨a, b, c, d, hs, ht⟩
    exact ⟨256 * a + b, c :: d :: r, ⟨a, b, hs, rfl⟩,
      256 * c + d, ⟨c, d, rfl, rfl⟩, ht⟩

theorem takeN_success_iff {n : Nat} {s r l : List Nat} :
    takeN n s = .success l r ↔ s = l ++ r ∧ l.length = n := by
  induction n generalizing s l with
  | zero =>
    unfold takeN pure'
    constructor
    · rintro h
      cases h
      simp
    · rintro ⟨hs, hl⟩
      rw [List.length_eq_zero] at hl
      subst hl
      simp at hs
      rw [hs]
  | succ n ih =>
    unfold takeN
    simp only [pbind_success_iff, pmap_success_iff, octet_success_iff]
    constructor
    · rintro ⟨a, m, hm, l', hl', rfl⟩
      rw [ih] at hl'
      subst hm
      simp [hl'.1, hl'.2]
    · rintro ⟨hs, hl⟩
      cases l with
      | nil => simp at hl
      | cons x l' =>
        refine ⟨x, l' ++ r, by simp [hs], l', ?_, rfl⟩
        rw [ih]
        simp at hl
        exact ⟨rfl, hl⟩

theorem nbit_success_iff {n : Nat} {s r : List Nat} {t : Nat × Nat} :
    nbit n s = .success t r ↔ ∃ b, s = b :: r ∧ t = (b >>> n, b % 2 ^ n) := by
  unfold nbit
  simp only [pmap_success_iff, octet_success_iff]

/-! ## Claim C3: TCP options concrete decode and end-of-option behaviour -/

theorem tcp_option_zero (rest : List Nat) :
    tcp_option (0 :: rest) = .success .EndOfOption rest := by
  simp [tcp_option, pbind, octet]

/-- Claim C3: applied to the span 02 04 05 3A 01 03 03 04 04 02 00 00, the TCP
options decoder succeeds, consumes the whole span, and yields exactly
[MaximumSegmentSize 1338, Noop, WindowScale 4, SackPermitted, EndOfOption,
EndOfOption]; and a code-0 octet yields an EndOfOption element without
consuming any further bytes. -/
theorem claim_C3 :
    tcp_options [0x02, 0x04, 0x05, 0x3A, 0x01, 0x03, 0x03, 0x04, 0x04, 0x02, 0x00, 0x00] =
      .success
        [.MaximumSegmentSize 1338, .Noop, .WindowScale 4, .SackPermitted,
          .EndOfOption, .EndOfOption] [] ∧
    ∀ rest : List Nat, tcp_option (0 :: rest) = .success .EndOfOption rest := by
  exact ⟨by decide, tcp_option_zero⟩

/-- Witness for C3 at a concrete instantiation of the quantified conjunct. -/
theorem claim_C3_witness :
    tcp_option (0 :: [7, 7]) = .success .EndOfOption [7, 7] :=
  claim_C3.2 [7, 7]

/-! ## Claim C4: fatal IPv4 version and IHL validation -/

/-- Claim C4: on any input whose first byte has high nibble different from 4
the IPv4 header decoder aborts with the fatal Version error carrying that
nibble, and on any input whose first byte has high nibble 4 and low nibble
below 5 it aborts with the fatal IHL error carrying that nibble, regardless of
the following bytes. -/
theorem claim_C4 :
    ∀ b rest, b < 256 →
      (b >>> 4 ≠ 4 →
        ipv4_header (b :: rest) = .error [Atom.ipv4Version (b >>> 4)]) ∧
      (b >>> 4 = 4 → b % 16 < 5 →
        ipv4_header (b :: rest) = .error [Atom.ipv4IHL (b % 16)]) := by
  intro b rest _
  constructor
  · intro hv
    simp [ipv4_header, pbind, tryMap, nbit, pmap, octet, hv]
  · intro hv hihl
    simp [ipv4_header, pbind, tryMap, nbit, pmap, octet, hv, hihl]

/-- Witness for C4 on the one-byte inputs 0x60 (version 6) and 0x43 (IHL 3). -/
theorem claim_C4_witness :
    ipv4_header [0x60] = .error [Atom.ipv4Version 6] ∧
    ipv4_header [0x43] = .error [Atom.ipv4IHL 3] :=
  ⟨(claim_C4 0x60 [] (by decide)).1 (by decide),
    (claim_C4 0x43 [] (by decide)).2 (by decide) (by decide)⟩

/-! ## Claim C5: IPv4 options span and cursor arithmetic, concrete decode -/

/-- Inversion of the fatal version/IHL check of `ipv4_header`. -/
theorem ipv4Check_ok {vi a : Nat × Nat} :
    ((if a.1 ≠ 4 then Except.error [Atom.ipv4Version a.1]
      else if a.2 < 5 then Except.error [Atom.ipv4IHL a.2]
      else Except.ok a) = Except.ok vi) →
      vi = a ∧ a.1 = 4 ∧ 5 ≤ a.2 := by
  intro h
  by_cases h1 : a.1 ≠ 4
  · rw [if_pos h1] at h
    cases h
  · rw [if_neg h1] at h
    by_cases h2 : a.2 < 5
    · rw [if_pos h2] at h
      cases h
    · rw [if_neg h2] at h
      cases h
      exact ⟨rfl, by omega, by omega⟩

/-- Successful IPv4 decodes have an options span of exactly `(ihl-5)*4` bytes
and consume exactly `ihl*4` bytes, with `ihl ≥ 5`. -/
theorem ipv4_header_shape {s r : List Nat} {h : IPv4Header} :
    ipv4_header s = .success h r →
      5 ≤ h.ihl ∧ h.options.length = (h.ihl - 5) * 4 ∧
        s.length = h.ihl * 4 + r.length := by
  intro hs
  rw [ipv4_header] at hs
  simp only [pbind_success_iff, pmap_success_iff, tryMap_success_iff,
    nbit_success_iff, octet_success_iff, u16_be_success_iff,
    takeN_success_iff, ip_protocol] at hs
  obtain ⟨vi, m1, ⟨a, ⟨b0, hs0, hvi⟩, hchk⟩, tos, m2, hs1, len1, m3,
    ⟨la, lb, hs2, hlen⟩, id1, m4, ⟨ia, ib, hs3, hid⟩, ff, m5,
    ⟨fb, hs4, hff⟩, f1, m6, hs5, ttl, m7, hs6, pr, m8, hs7, ck, m9,
    ⟨ca, cb, hs8, hck⟩, src, m10, ⟨hs9, hsrc⟩, dst, m11, ⟨hs10, hdst⟩,
    opts, ⟨hs11, hopts⟩, hh⟩ := hs
  obtain ⟨hvia, _, hihl⟩ := ipv4Check_ok hchk
  subst hvia hvi hh hs0 hs1 hs2 hs3 hs4 hs5 hs6 hs7 hs8 hs9 hs10 hs11
  refine ⟨hihl, by simp [hopts], ?_⟩
  simp [hsrc, hdst, hopts]
  omega

/-- Claim C5: whenever `ipv4_header` succeeds its options span has length
exactly `(ihl-5)*4` and the cursor sits exactly `ihl*4` bytes past the start;
and the 20 bytes 45 00 05 DC 1A E6 20 00 40 01 22 ED 0A 0A 01 87 0A 0A 01 B4
decode to the stated header (version 4, ihl 5, length 1500, id 0x1AE6, flags
0x01, fragment offset 0, ttl 64, protocol ICMP, source 10.10.1.135,
destination 10.10.1.180, empty options) with no input left over. -/
theorem claim_C5 :
    (∀ s r (h : IPv4Header), ipv4_header s = .success h r →
      h.options.length = (h.ihl - 5) * 4 ∧ s.length = h.ihl * 4 + r.length) ∧
    ipv4_header
        [0x45, 0x00, 0x05, 0xDC, 0x1A, 0xE6, 0x20, 0x00, 0x40, 0x01, 0x22,
          0xED, 0x0A, 0x0A, 0x01, 0x87, 0x0A, 0x0A, 0x01, 0xB4] =
      .success
        { version := 4, ihl := 5, tos := 0, length := 1500, id := 0x1AE6,
          flags := 0x01, fragment_offset := 0, ttl := 64,
          protocol := IPProtocol.ICMP, chksum := 0x22ED,
          source_addr := (10, 10, 1, 135), dest_addr := (10, 10, 1, 180),
          options := [] } [] := by
  constructor
  · intro s r h hs
    obtain ⟨_, h2, h3⟩ := ipv4_header_shape hs
    exact ⟨h2, h3⟩
  · decide

/-- Witness for C5 applying the span law to the concrete packet. -/
theorem claim_C5_witness :
    ipv4_header
        [0x45, 0x00, 0x05, 0xDC, 0x1A, 0xE6, 0x20, 0x00, 0x40, 0x01, 0x22,
          0xED, 0x0A, 0x0A, 0x01, 0x87, 0x0A, 0x0A, 0x01, 0xB4] =
      .success
        { version := 4, ihl := 5, tos := 0, length := 1500, id := 0x1AE6,
          flags := 0x01, fragment_offset := 0, ttl := 64,
          protocol := IPProtocol.ICMP, chksum := 0x22ED,
          source_addr := (10, 10, 1, 135), dest_addr := (10, 10, 1, 180),
          options := [] } [] ∧
    ([] : List Nat).length = (5 - 5) * 4 ∧
      (List.length
        [0x45, 0x00, 0x05, 0xDC, 0x1A, 0xE6, 0x20, 0x00, 0x40, 0x01, 0x22,
          0xED, 0x0A, 0x0A, 0x01, 0x87, 0x0A, 0x0A, 0x01, 0xB4]) =
        5 * 4 + ([] : List Nat).length := by
  refine ⟨claim_C5.2, ?_⟩
  have := claim_C5.1 _ _ _ claim_C5.2
  exact this


/-! ## Claim C6: Ethernet frame decoding with one-level VLAN unwrap -/

/-- Claim C6: the Ethernet decoder reads 6+6 MAC bytes then a big-endian type
field; exactly when that field equals 0x8100 it consumes one further 16-bit
tag-control-info (reported as `some`) and re-reads the type field once (even if
the second field is again 0x8100, it is reported as-is, so at most one unwrap
happens and the reported type is the post-VLAN one); otherwise the
tag-control-info is `none` and the first type field is final.  In particular a
frame ending in 81 00 04 D2 08 00 yields tci = some 1234 and the IPv4
EtherType. -/
theorem claim_C6 :
    ∀ d1 d2 d3 d4 d5 d6 s1 s2 s3 s4 s5 s6 t1 t2 : Nat, ∀ rest : List Nat,
      (256 * t1 + t2 ≠ 0x8100 →
        ethernet_frame
            (d1 :: d2 :: d3 :: d4 :: d5 :: d6 :: s1 :: s2 :: s3 :: s4 :: s5 ::
              s6 :: t1 :: t2 :: rest) =
          .success
            { destination := [d1, d2, d3, d4, d5, d6],
              source := [s1, s2, s3, s4, s5, s6],
              ether_type := 256 * t1 + t2, tci := none } rest) ∧
      (256 * t1 + t2 = 0x8100 → ∀ v1 v2 u1 u2 : Nat, ∀ tail : List Nat,
        rest = v1 :: v2 :: u1 :: u2 :: tail →
        ethernet_frame
            (d1 :: d2 :: d3 :: d4 :: d5 :: d6 :: s1 :: s2 :: s3 :: s4 :: s5 ::
              s6 :: t1 :: t2 :: rest) =
          .success
            { destination := [d1, d2, d3, d4, d5, d6],
              source := [s1, s2, s3, s4, s5, s6],
              ether_type := 256 * u1 + u2, tci := some (256 * v1 + v2) } tail) := by
  intro d1 d2 d3 d4 d5 d6 s1 s2 s3 s4 s5 s6 t1 t2 rest
  constructor
  · intro hne
    simp [ethernet_frame, takeN, ether_type, u16_be, octet, pbind, pmap,
      pure', EtherType.VLAN, hne]
  · rintro hvlan v1 v2 u1 u2 tail rfl
    simp [ethernet_frame, takeN, ether_type, u16_be, octet, pbind, pmap,
      pure', EtherType.VLAN, hvlan]

/-- Witness for C6 on the repository's VLAN-tagged test frame and a plain IPv4
frame. -/
theorem claim_C6_witness :
    ethernet_frame
        [0x00, 0x23, 0x54, 0x07, 0x93, 0x6C, 0x00, 0x1B, 0x21, 0x0F, 0x91,
          0x9B, 0x81, 0x00, 0x04, 0xD2, 0x08, 0x00] =
      .success
        { destination := [0x00, 0x23, 0x54, 0x07, 0x93, 0x6C],
          source := [0x00, 0x1B, 0x21, 0x0F, 0x91, 0x9B],
          ether_type := EtherType.IPV4, tci := some 1234 } [] ∧
    ethernet_frame
        [0x00, 0x23, 0x54, 0x07, 0x93, 0x6C, 0x00, 0x1B, 0x21, 0x0F, 0x91,
          0x9B, 0x08, 0x00] =
      .success
        { destination := [0x00, 0x23, 0x54, 0x07, 0x93, 0x6C],
          source := [0x00, 0x1B, 0x21, 0x0F, 0x91, 0x9B],
          ether_type := EtherType.IPV4, tci := none } [] := by
  constructor
  · exact (claim_C6 0x00 0x23 0x54 0x07 0x93 0x6C 0x00 0x1B 0x21 0x0F 0x91
      0x9B 0x81 0x00 [0x04, 0xD2, 0x08, 0x00]).2 (by decide) 0x04 0xD2 0x08
      0x00 [] rfl
  · exact (claim_C6 0x00 0x23 0x54 0x07 0x93 0x6C 0x00 0x1B 0x21 0x0F 0x91
      0x9B 0x08 0x00 []).1 (by decide)

/-! ## Claim C7: IPv6 version validation and bit-field derivation -/

/-- Claim C7: the IPv6 decoder aborts with a fatal Version error unless the
first nibble is 6; on success the differentiated-services value is the high
traffic-class nibble shifted left twice plus the top two bits of the low
nibble, the ECN is the low two bits of the low nibble, and the flow label is
the 20-bit value zero-extended; the concrete 40-byte packet beginning
60 20 01 FF 05 78 3A 05 decodes to version 6, ds 0, ecn 2, flow label 511,
length 1400, next-header ICMPv6, hop-limit 5. -/
theorem claim_C7 :
    (∀ b : Nat, ∀ rest : List Nat, b < 256 → b >>> 4 ≠ 6 →
      ipv6_header (b :: rest) = .error [Atom.ipv6Version (b >>> 4)]) ∧
    (∀ b0 b1 b2 b3 : Nat, ∀ tail : List Nat, ∀ h : IPv6Header, ∀ r : List Nat,
      ipv6_header (b0 :: b1 :: b2 :: b3 :: tail) = .success h r →
        h.version = 6 ∧
        h.ds = ((b0 % 16) <<< 2) + ((b1 >>> 4) >>> 2) ∧
        h.ecn = (b1 >>> 4) % 4 ∧
        h.flow_label = 65536 * (b1 % 16) + 256 * b2 + b3) ∧
    ipv6_header
        [0x60, 0x20, 0x01, 0xFF, 0x05, 0x78, 0x3A, 0x05, 0x20, 0x01, 0x0D,
          0xB8, 0x5C, 0xF8, 0x1A, 0xA8, 0x24, 0x81, 0x61, 0xE6, 0x5A, 0xC6,
          0x03, 0xE0, 0x20, 0x01, 0x0D, 0xB8, 0x78, 0x90, 0x2A, 0xE9, 0x90,
          0x8F, 0xA9, 0xF4, 0x2F, 0x4A, 0x9B, 0x80] =
      .success
        { version := 6, ds := 0, ecn := 2, flow_label := 511, length := 1400,
          next_header := IPProtocol.ICMP_6, hop_limit := 5,
          source_addr := [0x2001, 0xDB8, 0x5CF8, 0x1AA8, 0x2481, 0x61E6,
            0x5AC6, 0x3E0],
          dest_addr := [0x2001, 0xDB8, 0x7890, 0x2AE9, 0x908F, 0xA9F4,
            0x2F4A, 0x9B80] } [] := by
  refine ⟨?_, ?_, by decide⟩
  · intro b rest _ hv
    simp [ipv6_header, pbind, tryMap, nbit, pmap, octet, hv]
  · intro b0 b1 b2 b3 tail h r hs
    rw [ipv6_header] at hs
    simp only [pbind_success_iff, pmap_success_iff, tryMap_success_iff,
      nbit_success_iff, octet_success_iff, u16_be_success_iff,
      takeN_success_iff, ip_protocol] at hs
    obtain ⟨vt, m1, ⟨a, ⟨c0, hs0, ha⟩, hchk⟩, tf, m2, ⟨c1, hs1, htf⟩, f1, m3,
      hs2, f2, m4, hs3, len1, m5, ⟨la, lb, hs4, _⟩, nh, m6, hs5, hl, m7, hs6,
      src, m8, ⟨hs7, _⟩, dst, ⟨hs8, _⟩, hh⟩ := hs
    have hvt : vt = a ∧ a.1 = 6 := by
      by_cases h6 : a.1 = 6
      · rw [if_pos h6] at hchk
        cases hchk
        exact ⟨rfl, h6⟩
      · rw [if_neg h6] at hchk
        cases hchk
    obtain ⟨rfl, hv6⟩ := hvt
    cases hs0
    cases hs1
    cases hs2
    cases hs3
    subst ha htf hh
    exact ⟨hv6, rfl, rfl, rfl⟩

/-- Witness for C7 on the one-byte version-4 input and on the concrete packet. -/
theorem claim_C7_witness :
    ipv6_header [0x45] = .error [Atom.ipv6Version 4] ∧
    (0 : Nat) = ((0x60 % 16) <<< 2) + ((0x20 >>> 4) >>> 2) ∧
    (2 : Nat) = (0x20 >>> 4) % 4 ∧
    (511 : Nat) = 65536 * (0x20 % 16) + 256 * 0x01 + 0xFF := by
  constructor
  · exact claim_C7.1 0x45 [] (by decide) (by decide)
  · exact (claim_C7.2.1 0x60 0x20 0x01 0xFF _ _ _ claim_C7.2.2).2

/-! ## Claim C9: short buffers never decode successfully -/

/-- Successful UDP decodes consume exactly 8 bytes. -/
theorem udp_header_shape {s r : List Nat} {h : UdpHeader} :
    udp_header s = .success h r → s.length = 8 + r.length := by
  intro hs
  rw [udp_header] at hs
  simp only [pbind_success_iff, pmap_success_iff, u16_be_success_iff] at hs
  obtain ⟨a, m1, ⟨a1, a2, hs0, _⟩, b, m2, ⟨b1, b2, hs1, _⟩, c, m3,
    ⟨c1, c2, hs2, _⟩, d, ⟨d1, d2, hs3, _⟩, _⟩ := hs
  subst hs0 hs1 hs2 hs3
  simp
  omega

/-- Successful Ethernet decodes consume at least 14 bytes. -/
theorem ethernet_frame_shape {s r : List Nat} {h : EthernetFrame} :
    ethernet_frame s = .success h r → 14 + r.length ≤ s.length := by
  intro hs
  rw [ethernet_frame] at hs
  simp only [pbind_success_iff, pmap_success_iff, takeN_success_iff,
    ether_type, u16_be_success_iff] at hs
  obtain ⟨d, m1, ⟨hs0, hd⟩, sr, m2, ⟨hs1, hsr⟩, t, m3, ⟨t1, t2, hs2, _⟩,
    hrest⟩ := hs
  subst hs0 hs1 hs2
  by_cases hv : t = EtherType.VLAN
  · rw [if_pos hv] at hrest
    simp only [pbind_success_iff, pmap_success_iff, u16_be_success_iff] at hrest
    obtain ⟨tci, m4, ⟨x1, x2, hs3, _⟩, e, ⟨y1, y2, hs4, _⟩, _⟩ := hrest
    subst hs3 hs4
    simp [hd, hsr]
    omega
  · rw [if_neg hv] at hrest
    cases hrest
    simp [hd, hsr]
    omega

/-- Successful TCP decodes consume at least 20 bytes. -/
theorem tcp_header_shape {s r : List Nat} {h : TcpHeader} :
    tcp_header s = .success h r → 20 + r.length ≤ s.length := by
  intro hs
  rw [tcp_header] at hs
  simp only [pbind_success_iff, pmap_success_iff, u16_be_success_iff,
    u32_be_success_iff, takeN_success_iff, tcp_flags, tryMap_success_iff] at hs
  obtain ⟨sp, m1, ⟨a1, a2, hs0, _⟩, dp, m2, ⟨b1, b2, hs1, _⟩, sq, m3,
    ⟨c1, c2, c3, c4, hs2, _⟩, ak, m4, ⟨d1, d2, d3, d4, hs3, _⟩, fl, m5,
    ⟨fr, ⟨ra, ⟨e1, e2, hs4, _⟩, _⟩, _⟩, w, m6, ⟨f1, f2, hs5, _⟩, ck, m7,
    ⟨g1, g2, hs6, _⟩, up, m8, ⟨i1, i2, hs7, _⟩, opts, ⟨hs8, hopts⟩, _⟩ := hs
  subst hs0 hs1 hs2 hs3 hs4 hs5 hs6 hs7 hs8
  simp
  omega

/-- Successful IPv6 decodes consume exactly 40 bytes. -/
theorem ipv6_header_shape {s r : List Nat} {h : IPv6Header} :
    ipv6_header s = .success h r → s.length = 40 + r.length := by
  intro hs
  rw [ipv6_header] at hs
  simp only [pbind_success_iff, pmap_success_iff, tryMap_success_iff,
    nbit_success_iff, octet_success_iff, u16_be_success_iff,
    takeN_success_iff, ip_protocol] at hs
  obtain ⟨vt, m1, ⟨a, ⟨b0, hs0, _⟩, hchk⟩, tf, m2, ⟨b1, hs1, _⟩, f1, m3,
    hs2, f2, m4, hs3, len1, m5, ⟨la, lb, hs4, _⟩, nh, m6, hs5, hl, m7, hs6,
    src, m8, ⟨hs7, hsrc⟩, dst, ⟨hs8, hdst⟩, _⟩ := hs
  subst hs0 hs1 hs2 hs3 hs4 hs5 hs6 hs7 hs8
  simp [hsrc, hdst]
  omega

/-- Claim C9: every buffer shorter than a decoder's minimum header size (8
bytes UDP, 14 Ethernet, 20 IPv4 and TCP, 40 IPv6) is rejected; running out of
bytes never yields a successful decode (and the embedding is total, so no
panic or out-of-bounds read is possible). -/
theorem claim_C9 :
    ∀ s : List Nat,
      (s.length < 8 → ∀ t r, udp_header s ≠ .success t r) ∧
      (s.length < 14 → ∀ t r, ethernet_frame s ≠ .success t r) ∧
      (s.length < 20 → ∀ t r, ipv4_header s ≠ .success t r) ∧
      (s.length < 20 → ∀ t r, tcp_header s ≠ .success t r) ∧
      (s.length < 40 → ∀ t r, ipv6_header s ≠ .success t r) := by
  intro s
  refine ⟨fun hlen t r hs => ?_, fun hlen t r hs => ?_, fun hlen t r hs => ?_,
    fun hlen t r hs => ?_, fun hlen t r hs => ?_⟩
  · have := udp_header_shape hs
    omega
  · have := ethernet_frame_shape hs
    omega
  · have := ipv4_header_shape hs
    omega
  · have := tcp_header_shape hs
    omega
  · have := ipv6_header_shape hs
    omega

/-- Witness for C9 on a concrete 4-byte buffer. -/
theorem claim_C9_witness :
    udp_header [1, 2, 3, 4] ≠
      .success { source_port := 0, dest_port := 0, length := 0, checksum := 0 } [] :=
  (claim_C9 [1, 2, 3, 4]).1 (by decide) _ _

/-! ## Claim C2: which TCP validations are fatal -/

/-- Counterexample to C2: a wrong MSS length octet and an invalid SACK length
produce recoverable failures (the `failure` tier that repetition and
alternation absorb), not the fatal `error` tier the claim asserts. -/
theorem counterexample_C2 :
    tcp_option [2, 5] = .failure [Atom.mssLen, Atom.isNot 4 5] ∧
    tcp_option [5, 11] = .failure [Atom.sackLen 11] := by
  decide

/-- Claim C2 (amended): TCP decoding signals a fatal error only for the
data-offset check — a flags word whose top-4-bit data-offset is below 5 aborts
with the DataOffSet error; a fixed-length option whose length octet differs
from its expected value (MSS 4, window-scale 3, SACK-permitted 2, timestamps
10) and a SACK length outside {10, 18, 26, 34} are signalled as recoverable
failures tagged with the offending option (SackLen carrying the offending
length). -/
theorem claim_C2 :
    (∀ a b : Nat, ∀ rest : List Nat,
      (TcpFlags.mk (256 * a + b)).get_data_offset < 5 →
        tcp_flags (a :: b :: rest) = .error [Atom.dataOffSet]) ∧
    (∀ len : Nat, ∀ rest : List Nat, len ≠ 4 →
      mss (len :: rest) = .failure [Atom.mssLen, Atom.isNot 4 len]) ∧
    (∀ len : Nat, ∀ rest : List Nat, len ≠ 3 →
      window_scale (len :: rest) =
        .failure [Atom.windowScaleLen, Atom.isNot 3 len]) ∧
    (∀ len : Nat, ∀ rest : List Nat, len ≠ 2 →
      sack_permitted (len :: rest) =
        .failure [Atom.sackPermittedLen, Atom.isNot 2 len]) ∧
    (∀ len : Nat, ∀ rest : List Nat, len ≠ 10 →
      tipestamps (len :: rest) =
        .failure [Atom.timestampsLen, Atom.isNot 10 len]) ∧
    (∀ len : Nat, ∀ rest : List Nat,
      len ≠ 10 → len ≠ 18 → len ≠ 26 → len ≠ 34 →
        sack (len :: rest) = .failure [Atom.sackLen len]) := by
  refine ⟨?_, ?_, ?_, ?_, ?_, ?_⟩
  · intro a b rest h
    have h' : ¬ (TcpFlags.mk (256 * a + b)).get_data_offset ≥ 5 := by omega
    simp [tcp_flags, tryMap, pmap, u16_be, pbind, octet, h']
  · intro len rest h
    simp [mss, pbind, addAtom, is, h]
  · intro len rest h
    simp [window_scale, pbind, addAtom, is, h]
  · intro len rest h
    simp [sack_permitted, pmap, addAtom, is, h]
  · intro len rest h
    simp [tipestamps, pbind, addAtom, is, h]
  · intro len rest h10 h18 h26 h34
    simp [sack, pbind, pmap, octet, h10, h18, h26, h34]

/-- Witness for C2 on buffers with data-offset 4, MSS length 5, window-scale
length 9, SACK-permitted length 9, timestamps length 9 and SACK length 11. -/
theorem claim_C2_witness :
    tcp_flags [0x40, 0x00] = .error [Atom.dataOffSet] ∧
    mss [5] = .failure [Atom.mssLen, Atom.isNot 4 5] ∧
    window_scale [9] = .failure [Atom.windowScaleLen, Atom.isNot 3 9] ∧
    sack_permitted [9] = .failure [Atom.sackPermittedLen, Atom.isNot 2 9] ∧
    tipestamps [9] = .failure [Atom.timestampsLen, Atom.isNot 10 9] ∧
    sack [11] = .failure [Atom.sackLen 11] :=
  ⟨claim_C2.1 0x40 0x00 [] (by decide),
    claim_C2.2.1 5 [] (by decide),
    claim_C2.2.2.1 9 [] (by decide),
    claim_C2.2.2.2.1 9 [] (by decide),
    claim_C2.2.2.2.2.1 9 [] (by decide),
    claim_C2.2.2.2.2.2 11 [] (by decide) (by decide) (by decide) (by decide)⟩

/-! ## Claim C10: TcpFlags getter/setter algebra -/

theorem get_flag_testBit (raw : Nat) (g : TcpFlagName) :
    (TcpFlags.mk raw).get_flag g = raw.testBit (flagPos g) := by
  unfold TcpFlags.get_flag
  rw [Nat.one_shiftLeft, Nat.and_two_pow]
  rcases h : raw.testBit (flagPos g) with _ | _
  · simp [h]
  · have hp : (2 : Nat) ^ flagPos g ≠ 0 :=
      Nat.pos_iff_ne_zero.mp (Nat.two_pow_pos _)
    simp [h, hp]

theorem flagPos_lt (g : TcpFlagName) : flagPos g < 12 := by
  cases g <;> decide

theorem flagPos_inj {f g : TcpFlagName} (h : g ≠ f) : flagPos g ≠ flagPos f := by
  cases f <;> cases g <;> revert h <;> decide

theorem testBit_ge_16 {raw i : Nat} (hraw : raw < 65536) (hi : 16 ≤ i) :
    raw.testBit i = false := by
  apply Nat.testBit_eq_false_of_lt
  have h65536 : (65536 : Nat) = 2 ^ 16 := by norm_num
  exact lt_of_lt_of_le (h65536 ▸ hraw) (Nat.pow_le_pow_right (by omega) hi)

theorem set_flag_testBit (raw : Nat) (hraw : raw < 65536) (f : TcpFlagName)
    (b : Bool) (i : Nat) :
    (((TcpFlags.mk raw).set_flag f b).raw).testBit i =
      if i = flagPos f then b else raw.testBit i := by
  unfold TcpFlags.set_flag
  rcases b with _ | _
  · show ((raw &&& (65535 ^^^ (1 <<< flagPos f))).testBit i) = _
    rw [Nat.one_shiftLeft, Nat.testBit_land, Nat.testBit_xor]
    have h65535 : (65535 : Nat) = 2 ^ 16 - 1 := by norm_num
    rw [h65535, Nat.testBit_two_pow_sub_one, Nat.testBit_two_pow]
    by_cases hi : i = flagPos f
    · subst hi
      have h1 : flagPos f < 16 := lt_of_lt_of_le (flagPos_lt f) (by norm_num)
      simp [h1]
    · rw [if_neg hi]
      by_cases h16i : i < 16
      · simp [h16i, Ne.symm hi]
      · rw [testBit_ge_16 hraw (by omega)]
        simp
  · show ((raw ||| (1 <<< flagPos f)).testBit i) = _
    rw [Nat.one_shiftLeft, Nat.testBit_lor, Nat.testBit_two_pow]
    by_cases hi : i = flagPos f
    · subst hi
      simp
    · simp [Ne.symm hi, hi]

theorem set_flag_dataOffset (raw : Nat) (hraw : raw < 65536) (f : TcpFlagName)
    (b : Bool) :
    ((TcpFlags.mk raw).set_flag f b).get_data_offset =
      (TcpFlags.mk raw).get_data_offset := by
  unfold TcpFlags.get_data_offset
  have hsh : ((TcpFlags.mk raw).set_flag f b).raw >>> 12 = raw >>> 12 := by
    apply Nat.eq_of_testBit_eq
    intro i
    rw [Nat.testBit_shiftRight, Nat.testBit_shiftRight,
      set_flag_testBit raw hraw f b]
    have := flagPos_lt f
    rw [if_neg (by omega)]
  rw [hsh]

/-- Claim C10: for every flags value and named flag, `set` makes `get` return
the written boolean while leaving every other named flag bit and the
data-offset field unchanged; `set_data_offset n` succeeds with `Ok n` and makes
`get_data_offset` return `n` exactly when `5 ≤ n ≤ 15`, and otherwise returns
`Err n` leaving the value unchanged. -/
theorem claim_C10 :
    ∀ raw : Nat, raw < 65536 → ∀ f g : TcpFlagName, ∀ b : Bool, ∀ n : Nat,
      ((TcpFlags.mk raw).set_flag f b).get_flag f = b ∧
      (g ≠ f → ((TcpFlags.mk raw).set_flag f b).get_flag g =
        (TcpFlags.mk raw).get_flag g) ∧
      ((TcpFlags.mk raw).set_flag f b).get_data_offset =
        (TcpFlags.mk raw).get_data_offset ∧
      (5 ≤ n ∧ n ≤ 15 →
        ((TcpFlags.mk raw).set_data_offset n).2 = .ok n ∧
        (((TcpFlags.mk raw).set_data_offset n).1).get_data_offset = n) ∧
      (¬(5 ≤ n ∧ n ≤ 15) →
        (TcpFlags.mk raw).set_data_offset n = (TcpFlags.mk raw, .error n)) := by
  intro raw hraw f g b n
  refine ⟨?_, ?_, set_flag_dataOffset raw hraw f b, ?_, ?_⟩
  · have h1 : ((TcpFlags.mk raw).set_flag f b) =
        TcpFlags.mk ((TcpFlags.mk raw).set_flag f b).raw := rfl
    rw [h1, get_flag_testBit, set_flag_testBit raw hraw f b, if_pos rfl]
  · intro hgf
    have h1 : ((TcpFlags.mk raw).set_flag f b) =
        TcpFlags.mk ((TcpFlags.mk raw).set_flag f b).raw := rfl
    rw [h1, get_flag_testBit, get_flag_testBit,
      set_flag_testBit raw hraw f b, if_neg (flagPos_inj hgf)]
  · intro hn
    have hcond : 4 < n ∧ n < 16 := by omega
    unfold TcpFlags.set_data_offset
    rw [if_pos hcond]
    refine ⟨rfl, ?_⟩
    unfold TcpFlags.get_data_offset
    have hlow : raw &&& (65535 >>> 4) < 2 ^ 12 := by
      have h1 : raw &&& (65535 >>> 4) ≤ 65535 >>> 4 := Nat.and_le_right
      have h2 : (65535 : Nat) >>> 4 < 2 ^ 12 := by decide
      omega
    have hsh : ((raw &&& (65535 >>> 4)) ||| (n <<< 12)) >>> 12 = n := by
      apply Nat.eq_of_testBit_eq
      intro i
      rw [Nat.testBit_shiftRight, Nat.testBit_lor, Nat.testBit_shiftLeft]
      rw [Nat.testBit_eq_false_of_lt
        (lt_of_lt_of_le hlow (Nat.pow_le_pow_right (by omega) (by omega)))]
      simp only [Bool.false_or]
      have h12 : decide (12 + i ≥ 12) = true := by simp
      rw [h12, Bool.true_and]
      congr 1
      omega
    rw [hsh]
    omega
  · intro hn
    have hcond : ¬(4 < n ∧ n < 16) := by omega
    unfold TcpFlags.set_data_offset
    rw [if_neg hcond]

/-! ## List and takeWhile helpers -/

theorem takeWhile_append_all {p : Nat → Bool} {o rest : List Nat}
    (h : ∀ c ∈ o, p c = true) :
    (o ++ rest).takeWhile p = o ++ rest.takeWhile p := by
  induction o with
  | nil => simp
  | cons x t ih =>
    have hx : p x = true := h x (by simp)
    simp only [List.cons_append, List.takeWhile_cons, hx]
    rw [ih fun c hc => h c (by simp [hc])]
    simp

/-- Head-of-rest predicate: the next character (if any) fails `p`. -/
def headFails (p : Nat → Bool) : List Nat → Prop
  | [] => True
  | c :: _ => p c = false

theorem takeWhile_headFails {p : Nat → Bool} {rest : List Nat}
    (h : headFails p rest) : rest.takeWhile p = [] := by
  cases rest with
  | nil => rfl
  | cons c t => simp [List.takeWhile_cons, headFails] at h ⊢; simp [h]

theorem takeWhile_append_exact {p : Nat → Bool} {o rest : List Nat}
    (h : ∀ c ∈ o, p c = true) (hr : headFails p rest) :
    (o ++ rest).takeWhile p = o := by
  rw [takeWhile_append_all h, takeWhile_headFails hr, List.append_nil]

theorem headFails_dropWhile (p : Nat → Bool) (l : List Nat) :
    headFails p (l.dropWhile p) := by
  induction l with
  | nil => trivial
  | cons c t ih =>
    by_cases h : p c = true
    · simpa [List.dropWhile_cons, h] using ih
    · have h' : p c = false := by
        cases hp : p c
        · rfl
        · exact absurd hp h
      simp [List.dropWhile_cons, h', headFails]

theorem drop_length_takeWhile (p : Nat → Bool) (l : List Nat) :
    l.drop (l.takeWhile p).length = l.dropWhile p := by
  induction l with
  | nil => rfl
  | cons c t ih =>
    by_cases h : p c = true
    · simp [List.takeWhile_cons, List.dropWhile_cons, h, ih]
    · have h' : p c = false := by
        cases hp : p c
        · rfl
        · exact absurd hp h
      simp [List.takeWhile_cons, List.dropWhile_cons, h']

/-! ## Claim C8: the h16 production and case-insensitive hex -/

theorem hexDigitVal_lt {c : Nat} (h : isHexDigit c = true) :
    (hexDigit? c).getD 0 < 16 := by
  unfold isHexDigit hexDigit? at *
  split_ifs at h ⊢ <;> simp_all <;> omega

theorem hexVal_bound_aux (o : List Nat) (h : ∀ c ∈ o, isHexDigit c = true) :
    ∀ acc : Nat,
      o.foldl (fun acc c => 16 * acc + ((hexDigit? c).getD 0)) acc <
        (acc + 1) * 16 ^ o.length := by
  induction o with
  | nil => intro acc; simp
  | cons x t ih =>
    intro acc
    simp only [List.foldl_cons, List.length_cons]
    have hx := hexDigitVal_lt (h x (by simp))
    have ht := ih (fun c hc => h c (by simp [hc])) (16 * acc + (hexDigit? x).getD 0)
    calc t.foldl _ (16 * acc + (hexDigit? x).getD 0) <
        (16 * acc + (hexDigit? x).getD 0 + 1) * 16 ^ t.length := ht
      _ ≤ (acc + 1) * 16 ^ (t.length + 1) := by
        rw [pow_succ]
        have : 16 * acc + (hexDigit? x).getD 0 + 1 ≤ (acc + 1) * 16 := by omega
        exact Nat.mul_le_mul_right _ this |>.trans_eq (by ring)

theorem hexVal_lt (o : List Nat) (h : ∀ c ∈ o, isHexDigit c = true) :
    hexVal o < 16 ^ o.length := by
  have := hexVal_bound_aux o h 0
  simpa [hexVal] using this

/-- Claim C8: the `h16` production accepts every sequence of 1 to 4
hexadecimal digits, consuming all of it and yielding its value (below
0x10000), case-insensitively; consequently the strings "2001:0DB8:0:CD30::"
and "2001:db8:0:cd30::" both parse and produce the identical address value. -/
theorem claim_C8 :
    (∀ o : List Nat, 1 ≤ o.length → o.length ≤ 4 →
      (∀ c ∈ o, isHexDigit c = true) →
        h16 o = .success (hexVal o) [] ∧ hexVal o < 65536) ∧
    ipv6_address [50, 48, 48, 49, 58, 48, 68, 66, 56, 58, 48, 58, 67, 68, 51,
        48, 58, 58] =
      .success [0x2001, 0xDB8, 0, 0xCD30, 0, 0, 0, 0] [] ∧
    ipv6_address [50, 48, 48, 49, 58, 100, 98, 56, 58, 48, 58, 99, 100, 51,
        48, 58, 58] =
      .success [0x2001, 0xDB8, 0, 0xCD30, 0, 0, 0, 0] [] := by
  refine ⟨?_, by decide, by decide⟩
  intro o h1 h4 hhex
  constructor
  · unfold h16
    have htw : o.takeWhile isHexDigit = o := by
      have h0 : (o ++ []).takeWhile isHexDigit = o :=
        takeWhile_append_exact hhex trivial
      simpa using h0
    rw [htw, List.take_of_length_le h4]
    cases o with
    | nil => simp at h1
    | cons c t => simp
  · have := hexVal_lt o hhex
    have h16le : (16 : Nat) ^ o.length ≤ 16 ^ 4 := Nat.pow_le_pow_right (by omega) h4
    omega

/-- Witness for C8 on the four-digit group "0DB8" (and its lowercase form). -/
theorem claim_C8_witness :
    h16 [48, 68, 66, 56] = .success 0xDB8 [] ∧
    h16 [48, 100, 98, 56] = .success 0xDB8 [] :=
  ⟨(claim_C8.1 [48, 68, 66, 56] (by decide) (by decide) (by decide)).1,
    (claim_C8.1 [48, 100, 98, 56] (by decide) (by decide) (by decide)).1⟩

/-! ## Claim C1: textual address parsers versus the reference

Evaluation and failure-propagation lemmas for the grammar combinators, a
canonical-form characterisation of decimal octets, and the acceptance
equivalence of the dotted-quad parser with the reference reader. -/

theorem pbind_eval {p : Parser α} (f : α → Parser β) {s m : List Nat} {a : α}
    (h : p s = .success a m) : pbind p f s = f a m := by
  unfold pbind
  rw [h]

theorem pbind_fail {p : Parser α} (f : α → Parser β) {s : List Nat} {c : Ctx}
    (h : p s = .failure c) : pbind p f s = .failure c := by
  unfold pbind
  rw [h]

theorem pmap_eval {p : Parser α} (f : α → β) {s m : List Nat} {a : α}
    (h : p s = .success a m) : pmap p f s = .success (f a) m := by
  unfold pmap
  rw [h]

theorem pmap_fail {p : Parser α} (f : α → β) {s : List Nat} {c : Ctx}
    (h : p s = .failure c) : pmap p f s = .failure c := by
  unfold pmap
  rw [h]

theorem tryMap_fail {p : Parser α} (f : α → Except Ctx β) {s : List Nat}
    {c : Ctx} (h : p s = .failure c) : tryMap p f s = .failure c := by
  unfold tryMap
  rw [h]

theorem tryMap_eval {p : Parser α} (f : α → Except Ctx β) {s m : List Nat}
    {a : α} (h : p s = .success a m) : tryMap p f s =
      match f a with
      | .ok b => .success b m
      | .error c => .error c := by
  unfold tryMap
  rw [h]

theorem orElse'_fail_left {p q : Parser α} {s : List Nat} {c : Ctx}
    (h : p s = .failure c) : orElse' p q s = q s := by
  unfold orElse'
  rw [h]

theorem is_eval (b : Nat) (rest : List Nat) : is b (b :: rest) = .success b rest := by
  simp [is]

theorem is_fail_ne {x b : Nat} (h : x ≠ b) (rest : List Nat) :
    is b (x :: rest) = .failure [Atom.isNot b x] := by
  simp [is, h]

theorem is_fail_nil (b : Nat) : is b [] = .failure [Atom.endOfStream] := rfl

theorem to_digit_eval {c : Nat} (h : isDigit c = true) (rest : List Nat) :
    to_digit (c :: rest) = .success (c - 48) rest := by
  simp [to_digit, h]

theorem to_digit_fail {c : Nat} (h : isDigit c = false) (rest : List Nat) :
    to_digit (c :: rest) = .failure [Atom.digit] := by
  simp [to_digit, h]

theorem to_digit_nil : to_digit [] = .failure [Atom.endOfStream] := rfl

theorem to_digit_headFails {rest : List Nat} (h : headFails isDigit rest) :
    ∃ c, to_digit rest = .failure c := by
  cases rest with
  | nil => exact ⟨_, to_digit_nil⟩
  | cons r t => exact ⟨_, to_digit_fail h t⟩

theorem is_digitChar_headFails {b : Nat} (hb : isDigit b = true)
    {rest : List Nat} (h : headFails isDigit rest) :
    ∃ c, is b rest = .failure c := by
  cases rest with
  | nil => exact ⟨_, is_fail_nil b⟩
  | cons r t =>
    refine ⟨_, is_fail_ne (fun hrb => ?_) t⟩
    rw [hrb] at h
    rw [h] at hb
    cases hb

theorem isDigit_iff {c : Nat} : isDigit c = true ↔ 48 ≤ c ∧ c ≤ 57 := by
  unfold isDigit
  simp

/-- Canonical decimal octet strings and their values: the shapes accepted by
both the grammar and the reference reader. -/
def canonOctet : List Nat → Nat → Prop
  | [c], v => isDigit c = true ∧ v = c - 48
  | [a, b], v => isDigit a = true ∧ isDigit b = true ∧ a ≠ 48 ∧
      v = (a - 48) * 10 + (b - 48)
  | [a, b, c], v => isDigit a = true ∧ isDigit b = true ∧ isDigit c = true ∧
      a ≠ 48 ∧ v = ((a - 48) * 10 + (b - 48)) * 10 + (c - 48) ∧ v ≤ 255
  | _, _ => False

theorem canonOctet_digits {o : List Nat} {v : Nat} (h : canonOctet o v) :
    ∀ c ∈ o, isDigit c = true := by
  match o with
  | [c] =>
    intro x hx
    simp at hx
    subst hx
    exact h.1
  | [a, b] =>
    intro x hx
    simp at hx
    rcases hx with rfl | rfl
    exacts [h.1, h.2.1]
  | [a, b, c] =>
    intro x hx
    simp at hx
    rcases hx with rfl | rfl | rfl
    exacts [h.1, h.2.1, h.2.2.1]
  | [] => cases h
  | _ :: _ :: _ :: _ :: _ => cases h

/-- Soundness: a successful `dec_octet` parse consumed a canonical octet. -/
theorem dec_octet_sound {s rest : List Nat} {v : Nat}
    (h : dec_octet s = .success v rest) : ∃ o, s = o ++ rest ∧ canonOctet o v := by
  unfold dec_octet at h
  rcases orElse'_success_iff.mp h with h0 | ⟨c0, hf0, h⟩
  · rw [dec_octet_0, tryMap_success_iff] at h0
    obtain ⟨cv, hinner, hok⟩ := h0
    simp only [pbind_success_iff, pmap_success_iff, is_success_iff,
      to_digit_success_iff] at hinner
    obtain ⟨x0, m1, ⟨hs, _⟩, x1, m2, ⟨hm1, _⟩, d, ⟨cch, hm2, hdig, hdv⟩, hcv⟩ :=
      hinner
    by_cases hle : 250 + cv ≤ 255
    · rw [if_pos hle] at hok
      cases hok
      refine ⟨[50, 53, cch], by simp [hs, hm1, hm2], ?_⟩
      have hb := isDigit_iff.mp hdig
      refine ⟨by decide, by decide, hdig, by decide, by omega, by omega⟩
    · rw [if_neg hle] at hok
      cases hok
  rcases orElse'_success_iff.mp h with h1 | ⟨c1, hf1, h⟩
  · rw [dec_octet_1, tryMap_success_iff] at h1
    obtain ⟨bc, hinner, hok⟩ := h1
    simp only [pbind_success_iff, pmap_success_iff, is_success_iff,
      to_digit_success_iff] at hinner
    obtain ⟨x0, m1, ⟨hs, _⟩, db, m2, ⟨bch, hm1, hbdig, hbv⟩, dc,
      ⟨cch, hm2, hcdig, hcv⟩, hbc⟩ := hinner
    by_cases hle : 200 + (bc.1 * 10 + bc.2) ≤ 255
    · rw [if_pos hle] at hok
      cases hok
      refine ⟨[50, bch, cch], by simp [hs, hm1, hm2], ?_⟩
      have hbb := isDigit_iff.mp hbdig
      have hcb := isDigit_iff.mp hcdig
      subst hbc
      simp only [hbv, hcv] at hle ⊢
      refine ⟨by decide, hbdig, hcdig, by decide, by omega, by omega⟩
    · rw [if_neg hle] at hok
      cases hok
  rcases orElse'_success_iff.mp h with h2 | ⟨c2, hf2, h⟩
  · rw [dec_octet_2, tryMap_success_iff] at h2
    obtain ⟨bc, hinner, hok⟩ := h2
    simp only [pbind_success_iff, pmap_success_iff, is_success_iff,
      to_digit_success_iff] at hinner
    obtain ⟨x0, m1, ⟨hs, _⟩, db, m2, ⟨bch, hm1, hbdig, hbv⟩, dc,
      ⟨cch, hm2, hcdig, hcv⟩, hbc⟩ := hinner
    by_cases hle : 100 + (bc.1 * 10 + bc.2) ≤ 255
    · rw [if_pos hle] at hok
      cases hok
      refine ⟨[49, bch, cch], by simp [hs, hm1, hm2], ?_⟩
      have hbb := isDigit_iff.mp hbdig
      have hcb := isDigit_iff.mp hcdig
      subst hbc
      simp only [hbv, hcv] at hle ⊢
      refine ⟨by decide, hbdig, hcdig, by decide, by omega, by omega⟩
    · rw [if_neg hle] at hok
      cases hok
  rcases orElse'_success_iff.mp h with h3 | ⟨c3, hf3, h4⟩
  · rw [dec_octet_3, tryMap_success_iff] at h3
    obtain ⟨ab, hinner, hok⟩ := h3
    simp only [pbind_success_iff, pmap_success_iff, to_digit_success_iff] at hinner
    obtain ⟨da, m1, ⟨ach, hs, hadig, hav⟩, db, ⟨bch, hm1, hbdig, hbv⟩, hab⟩ :=
      hinner
    by_cases hz : ab.1 = 0
    · rw [if_pos hz] at hok
      cases hok
    · rw [if_neg hz] at hok
      cases hok
      refine ⟨[ach, bch], by simp [hs, hm1], ?_⟩
      have hab' := isDigit_iff.mp hadig
      subst hab
      simp only [hav, hbv] at hz ⊢
      exact ⟨hadig, hbdig, by omega, rfl⟩
  · rw [dec_octet_4] at h4
    rw [to_digit_success_iff] at h4
    obtain ⟨cch, hs, hdig, hv⟩ := h4
    exact ⟨[cch], by simp [hs], hdig, hv⟩

theorem is_cons (b x : Nat) (s : List Nat) :
    is b (x :: s) = if x = b then .success x s else .failure [Atom.isNot b x] := rfl

theorem to_digit_cons (c : Nat) (s : List Nat) :
    to_digit (c :: s) =
      if isDigit c then .success (c - 48) s else .failure [Atom.digit] := rfl

/-- Completeness: a canonical octet followed by a non-digit boundary is parsed
by `dec_octet`, consuming exactly the octet. -/
theorem dec_octet_complete {o rest : List Nat} {v : Nat}
    (hc : canonOctet o v) (hr : headFails isDigit rest) :
    dec_octet (o ++ rest) = .success v rest := by
  obtain ⟨cf, hcf⟩ := to_digit_headFails hr
  obtain ⟨cg, hcg⟩ := is_digitChar_headFails (by decide : isDigit 53 = true) hr
  have hd49 : isDigit 49 = true := by decide
  have hd50 : isDigit 50 = true := by decide
  have hd53 : isDigit 53 = true := by decide
  match o with
  | [] => exact hc.elim
  | _ :: _ :: _ :: _ :: _ => exact hc.elim
  | [a] =>
    obtain ⟨hda, hv⟩ := (hc : isDigit a = true ∧ v = a - 48)
    have hab := isDigit_iff.mp hda
    subst hv
    by_cases ha50 : a = 50
    · subst ha50
      simp [dec_octet, dec_octet_0, dec_octet_1, dec_octet_2, dec_octet_3,
        dec_octet_4, orElse', tryMap, pbind, pmap, is_cons, to_digit_cons,
        hcf, hcg, hd49, hd50, hd53]
    · by_cases ha49 : a = 49
      · subst ha49
        simp [dec_octet, dec_octet_0, dec_octet_1, dec_octet_2, dec_octet_3,
          dec_octet_4, orElse', tryMap, pbind, pmap, is_cons, to_digit_cons,
          hcf, hcg, hd49, hd50, hd53]
      · simp [dec_octet, dec_octet_0, dec_octet_1, dec_octet_2, dec_octet_3,
          dec_octet_4, orElse', tryMap, pbind, pmap, is_cons, to_digit_cons,
          hcf, hcg, ha50, ha49, hda, hd49, hd50, hd53]
  | [a, b] =>
    obtain ⟨hda, hdb, ha48, hv⟩ :=
      (hc : isDigit a = true ∧ isDigit b = true ∧ a ≠ 48 ∧
        v = (a - 48) * 10 + (b - 48))
    have hab := isDigit_iff.mp hda
    have hbb := isDigit_iff.mp hdb
    have haz : ¬(a - 48 = 0) := by omega
    subst hv
    by_cases ha50 : a = 50
    · subst ha50
      by_cases hb53 : b = 53
      · subst hb53
        simp [dec_octet, dec_octet_0, dec_octet_1, dec_octet_2, dec_octet_3,
          dec_octet_4, orElse', tryMap, pbind, pmap, is_cons, to_digit_cons,
          hcf, hcg, hd49, hd50, hd53]
      · simp [dec_octet, dec_octet_0, dec_octet_1, dec_octet_2, dec_octet_3,
          dec_octet_4, orElse', tryMap, pbind, pmap, is_cons, to_digit_cons,
          hcf, hcg, hb53, hdb, hd49, hd50, hd53]
    · by_cases ha49 : a = 49
      · subst ha49
        simp [dec_octet, dec_octet_0, dec_octet_1, dec_octet_2, dec_octet_3,
          dec_octet_4, orElse', tryMap, pbind, pmap, is_cons, to_digit_cons,
          hcf, hcg, hdb, hd49, hd50, hd53]
      · simp [dec_octet, dec_octet_0, dec_octet_1, dec_octet_2, dec_octet_3,
          dec_octet_4, orElse', tryMap, pbind, pmap, is_cons, to_digit_cons,
          hcf, hcg, ha50, ha49, hda, hdb, haz, hd49, hd50, hd53]
  | [a, b, c] =>
    obtain ⟨hda, hdb, hdc, ha48, hv, hle⟩ :=
      (hc : isDigit a = true ∧ isDigit b = true ∧ isDigit c = true ∧
        a ≠ 48 ∧ v = ((a - 48) * 10 + (b - 48)) * 10 + (c - 48) ∧ v ≤ 255)
    have hab := isDigit_iff.mp hda
    have hbb := isDigit_iff.mp hdb
    have hcb := isDigit_iff.mp hdc
    have ha12 : a = 49 ∨ a = 50 := by omega
    rcases ha12 with ha49 | ha50
    · subst ha49
      have hcond : 100 + ((b - 48) * 10 + (c - 48)) ≤ 255 := by omega
      subst hv
      simp [dec_octet, dec_octet_0, dec_octet_1, dec_octet_2, dec_octet_3,
        dec_octet_4, orElse', tryMap, pbind, pmap, is_cons, to_digit_cons,
        hdb, hdc, hcond, Parsed.success.injEq, hd49, hd50, hd53]
      omega
    · subst ha50
      by_cases hb53 : b = 53
      · subst hb53
        have hcond : 250 + (c - 48) ≤ 255 := by omega
        subst hv
        simp [dec_octet, dec_octet_0, dec_octet_1, dec_octet_2, dec_octet_3,
          dec_octet_4, orElse', tryMap, pbind, pmap, is_cons, to_digit_cons,
          hdc, hcond, Parsed.success.injEq, hd49, hd50, hd53]
      · have hcond : 200 + ((b - 48) * 10 + (c - 48)) ≤ 255 := by omega
        subst hv
        simp [dec_octet, dec_octet_0, dec_octet_1, dec_octet_2, dec_octet_3,
          dec_octet_4, orElse', tryMap, pbind, pmap, is_cons, to_digit_cons,
          hb53, hdb, hdc, hcond, Parsed.success.injEq, hd49, hd50, hd53]
        omega

/-- Completeness of the reference octet reader on a canonical octet followed
by a non-digit boundary. -/
theorem refReadOctet_complete {o rest : List Nat} {v : Nat}
    (hc : canonOctet o v) (hr : headFails isDigit rest) :
    refReadOctet (o ++ rest) = some (v, rest) := by
  have htw : (o ++ rest).takeWhile isDigit = o :=
    takeWhile_append_exact (canonOctet_digits hc) hr
  have hdrop : (o ++ rest).drop o.length = rest := List.drop_left o rest
  unfold refReadOctet
  rw [htw]
  match o, hdrop with
  | [], _ => exact hc.elim
  | _ :: _ :: _ :: _ :: _, _ => exact hc.elim
  | [a], hdrop =>
    obtain ⟨hda, hv⟩ := (hc : isDigit a = true ∧ v = a - 48)
    have hab := isDigit_iff.mp hda
    subst hv
    simp only [List.length_cons, List.length_nil, List.headI,
      List.foldl_cons, List.foldl_nil]
    rw [if_neg (by omega), if_neg (by omega), if_neg (by omega),
      if_neg (by omega)]
    simp only [List.length_cons, List.length_nil] at hdrop
    rw [hdrop]
    simp only [Option.some.injEq, Prod.mk.injEq, eq_self_iff_true, and_true]
    omega
  | [a, b], hdrop =>
    obtain ⟨hda, hdb, ha48, hv⟩ :=
      (hc : isDigit a = true ∧ isDigit b = true ∧ a ≠ 48 ∧
        v = (a - 48) * 10 + (b - 48))
    have hab := isDigit_iff.mp hda
    have hbb := isDigit_iff.mp hdb
    subst hv
    simp only [List.length_cons, List.length_nil, List.headI,
      List.foldl_cons, List.foldl_nil]
    rw [if_neg (by omega), if_neg (by omega), if_neg (by omega),
      if_neg (by omega)]
    simp only [List.length_cons, List.length_nil] at hdrop
    rw [hdrop]
    simp only [Option.some.injEq, Prod.mk.injEq, eq_self_iff_true, and_true]
    omega
  | [a, b, c], hdrop =>
    obtain ⟨hda, hdb, hdc, ha48, hv, hle⟩ :=
      (hc : isDigit a = true ∧ isDigit b = true ∧ isDigit c = true ∧
        a ≠ 48 ∧ v = ((a - 48) * 10 + (b - 48)) * 10 + (c - 48) ∧ v ≤ 255)
    have hab := isDigit_iff.mp hda
    have hbb := isDigit_iff.mp hdb
    have hcb := isDigit_iff.mp hdc
    subst hv
    simp only [List.length_cons, List.length_nil, List.headI,
      List.foldl_cons, List.foldl_nil]
    rw [if_neg (by omega), if_neg (by omega), if_neg (by omega),
      if_neg (by omega)]
    simp only [List.length_cons, List.length_nil] at hdrop
    rw [hdrop]
    simp only [Option.some.injEq, Prod.mk.injEq, eq_self_iff_true, and_true]
    omega

/-- Soundness of the reference octet reader: success yields a canonical octet
ending at a non-digit boundary. -/
theorem refReadOctet_sound {s rest : List Nat} {v : Nat}
    (h : refReadOctet s = some (v, rest)) :
    ∃ o, s = o ++ rest ∧ canonOctet o v ∧ headFails isDigit rest := by
  unfold refReadOctet at h
  by_cases h0 : (s.takeWhile isDigit).length = 0
  · rw [if_pos h0] at h
    cases h
  rw [if_neg h0] at h
  by_cases h3 : 3 < (s.takeWhile isDigit).length
  · rw [if_pos h3] at h
    cases h
  rw [if_neg h3] at h
  by_cases hz : (s.takeWhile isDigit).headI = 48 ∧ 1 < (s.takeWhile isDigit).length
  · rw [if_pos hz] at h
    cases h
  rw [if_neg hz] at h
  by_cases hv255 :
      255 < (s.takeWhile isDigit).foldl (fun acc c => 10 * acc + (c - 48)) 0
  · rw [if_pos hv255] at h
    cases h
  rw [if_neg hv255] at h
  cases h
  have hsplit : s = s.takeWhile isDigit ++ s.dropWhile isDigit :=
    (List.takeWhile_append_dropWhile isDigit s).symm
  have hdrop : s.drop (s.takeWhile isDigit).length = s.dropWhile isDigit :=
    drop_length_takeWhile isDigit s
  have hdigits : ∀ c ∈ s.takeWhile isDigit, isDigit c = true :=
    fun c hc => List.mem_takeWhile_imp hc
  have hhead : headFails isDigit (s.dropWhile isDigit) :=
    headFails_dropWhile isDigit s
  refine ⟨s.takeWhile isDigit, by rw [hdrop, ← hsplit], ?_, by rw [hdrop]; exact hhead⟩
  generalize hrun : s.takeWhile isDigit = run at h0 h3 hz hv255 hdigits
  match run, h0, h3 with
  | [], h0, _ => exact absurd rfl h0
  | _ :: _ :: _ :: _ :: _, _, h3 =>
    exact absurd (by simp only [List.length_cons]; omega) h3
  | [a], _, _ =>
    have hda := hdigits a (by simp)
    simp only [List.foldl_cons, List.foldl_nil] at hv255 ⊢
    have hab := isDigit_iff.mp hda
    exact ⟨hda, by omega⟩
  | [a, b], _, _ =>
    have hda := hdigits a (by simp)
    have hdb := hdigits b (by simp)
    have hab := isDigit_iff.mp hda
    have hbb := isDigit_iff.mp hdb
    simp only [List.headI, List.length_cons, List.length_nil] at hz
    simp only [List.foldl_cons, List.foldl_nil] at hv255 ⊢
    refine ⟨hda, hdb, by omega, by omega⟩
  | [a, b, c], _, _ =>
    have hda := hdigits a (by simp)
    have hdb := hdigits b (by simp)
    have hdc := hdigits c (by simp)
    have hab := isDigit_iff.mp hda
    have hbb := isDigit_iff.mp hdb
    have hcb := isDigit_iff.mp hdc
    simp only [List.headI, List.length_cons, List.length_nil] at hz
    simp only [List.foldl_cons, List.foldl_nil] at hv255 ⊢
    refine ⟨hda, hdb, hdc, by omega, by omega, by omega⟩

/-- Acceptance equivalence for the dotted-quad grammar: the parser fully
consumes an input with value `v` exactly when the reference reader does. -/
theorem ipv4_address_agrees (s : List Nat) (v : Ipv4Addr) :
    ipv4_address s = .success v [] ↔ refIpv4 s = some v := by
  constructor
  · intro h
    rw [ipv4_address] at h
    simp only [pbind_success_iff, pmap_success_iff, is_success_iff] at h
    obtain ⟨x1, r1, h1, t1, r2, ⟨hr1, _⟩, x2, r3, h2, t2, r4, ⟨hr3, _⟩, x3,
      r5, h3, t3, r6, ⟨hr5, _⟩, x4, h4, hv⟩ := h
    subst hr1 hr3 hr5
    obtain ⟨o1, hs1, hc1⟩ := dec_octet_sound h1
    obtain ⟨o2, hs2, hc2⟩ := dec_octet_sound h2
    obtain ⟨o3, hs3, hc3⟩ := dec_octet_sound h3
    obtain ⟨o4, hs4, hc4⟩ := dec_octet_sound h4
    have e1 : refReadOctet s = some (x1, 46 :: r2) := by
      rw [hs1]
      exact refReadOctet_complete hc1 rfl
    have e2 : refReadOctet r2 = some (x2, 46 :: r4) := by
      rw [hs2]
      exact refReadOctet_complete hc2 rfl
    have e3 : refReadOctet r4 = some (x3, 46 :: r6) := by
      rw [hs3]
      exact refReadOctet_complete hc3 rfl
    have e4 : refReadOctet r6 = some (x4, []) := by
      rw [hs4]
      exact refReadOctet_complete hc4 trivial
    simp [refIpv4, refReadIpv4, e1, e2, e3, e4, hv]
  · intro h
    rw [refIpv4] at h
    cases hri : refReadIpv4 s with
    | none =>
      rw [hri] at h
      cases h
    | some p =>
      rw [hri] at h
      obtain ⟨v', rest'⟩ := p
      cases rest' with
      | cons _ _ => simp at h
      | nil =>
        simp only [Option.some.injEq] at h
        subst h
        rw [refReadIpv4] at hri
        cases ho1 : refReadOctet s with
        | none =>
          rw [ho1] at hri
          cases hri
        | some p1 =>
          rw [ho1] at hri
          obtain ⟨x1, r1⟩ := p1
          cases r1 with
          | nil => simp at hri
          | cons y1 r2 =>
            by_cases hy1 : y1 = 46
            swap
            · simp [hy1] at hri
            subst hy1
            simp only [ne_eq, not_true_eq_false, if_false, ite_false,
              if_neg (by omega : ¬(46 : Nat) ≠ 46)] at hri
            cases ho2 : refReadOctet r2 with
            | none =>
              rw [ho2] at hri
              cases hri
            | some p2 =>
              rw [ho2] at hri
              obtain ⟨x2, r3⟩ := p2
              cases r3 with
              | nil => simp at hri
              | cons y2 r4 =>
                by_cases hy2 : y2 = 46
                swap
                · simp [hy2] at hri
                subst hy2
                simp only [ne_eq, not_true_eq_false, if_false, ite_false,
                  if_neg (by omega : ¬(46 : Nat) ≠ 46)] at hri
                cases ho3 : refReadOctet r4 with
                | none =>
                  rw [ho3] at hri
                  cases hri
                | some p3 =>
                  rw [ho3] at hri
                  obtain ⟨x3, r5⟩ := p3
                  cases r5 with
                  | nil => simp at hri
                  | cons y3 r6 =>
                    by_cases hy3 : y3 = 46
                    swap
                    · simp [hy3] at hri
                    subst hy3
                    simp only [ne_eq, not_true_eq_false, if_false, ite_false,
                      if_neg (by omega : ¬(46 : Nat) ≠ 46)] at hri
                    cases ho4 : refReadOctet r6 with
                    | none =>
                      rw [ho4] at hri
                      cases hri
                    | some p4 =>
                      rw [ho4] at hri
                      obtain ⟨x4, r7⟩ := p4
                      simp only [Option.some.injEq, Prod.mk.injEq] at hri
                      obtain ⟨hv', hr7⟩ := hri
                      subst hr7
                      obtain ⟨o1, hs1, hc1, _⟩ := refReadOctet_sound ho1
                      obtain ⟨o2, hs2, hc2, _⟩ := refReadOctet_sound ho2
                      obtain ⟨o3, hs3, hc3, _⟩ := refReadOctet_sound ho3
                      obtain ⟨o4, hs4, hc4, _⟩ := refReadOctet_sound ho4
                      have e1 : dec_octet s = .success x1 (46 :: r2) := by
                        rw [hs1]
                        exact dec_octet_complete hc1 rfl
                      have e2 : dec_octet r2 = .success x2 (46 :: r4) := by
                        rw [hs2]
                        exact dec_octet_complete hc2 rfl
                      have e3 : dec_octet r4 = .success x3 (46 :: r6) := by
                        rw [hs3]
                        exact dec_octet_complete hc3 rfl
                      have e4 : dec_octet r6 = .success x4 [] := by
                        rw [hs4]
                        exact dec_octet_complete hc4 trivial
                      simp [ipv4_address, pbind, pmap, e1, e2, e3, e4,
                        is_cons, ← hv']

/-- Counterexample to C1: the IPv6 grammar accepts the ASCII input ":1::"
(bytes 58 49 58 58), fully consumed with value 0:1:0:0:0:0:0:0, through the
optional `":" h16` branch taken without a preceding `h16`; the reference
parser rejects a lone leading colon. -/
theorem counterexample_C1 :
    ipv6_address [58, 49, 58, 58] = .success [0, 1, 0, 0, 0, 0, 0, 0] [] ∧
    refIpv6 [58, 49, 58, 58] = none := by
  constructor
  · decide
  · decide

/-- Claim C1 (amended): the dotted-quad IPv4 parser accepts exactly the
strings the reference accepts, with identical values; the IPv6 textual parser
disagrees with the reference in both directions — it accepts ":1::" which the
reference rejects, and (the leading-zero octet error being fatal, aborting the
whole alternation from inside the embedded-IPv4 branch of `ls32`) it rejects
"::01" which the reference accepts as ::1. -/
theorem claim_C1 :
    (∀ (s : List Nat) (v : Ipv4Addr),
      ipv4_address s = .success v [] ↔ refIpv4 s = some v) ∧
    (ipv6_address [58, 49, 58, 58] = .success [0, 1, 0, 0, 0, 0, 0, 0] [] ∧
      refIpv6 [58, 49, 58, 58] = none) ∧
    (refIpv6 [58, 58, 48, 49] = some [0, 0, 0, 0, 0, 0, 0, 1] ∧
      ipv6_address [58, 58, 48, 49] = .error [Atom.leadingZero]) := by
  refine ⟨ipv4_address_agrees, ⟨by decide, by decide⟩, by decide, by decide⟩

/-- Witness for C1 instantiating the IPv4 equivalence on "255.255.255.255"
and "127.0.0.1". -/
theorem claim_C1_witness :
    refIpv4 [50, 53, 53, 46, 50, 53, 53, 46, 50, 53, 53, 46, 50, 53, 53] =
      some (255, 255, 255, 255) ∧
    ipv4_address [49, 50, 55, 46, 48, 46, 48, 46, 49] =
      .success (127, 0, 0, 1) [] :=
  ⟨(claim_C1.1 _ _).mp (by decide), (claim_C1.1 _ _).mpr (by decide)⟩

/-- Witness for C10 at raw 0x5018, the ack flag, and data-offset 8. -/
theorem claim_C10_witness :
    ((TcpFlags.mk 0x5018).set_flag .ack true).get_flag .ack = true ∧
    ((TcpFlags.mk 0x5018).set_flag .ack true).get_flag .syn =
      (TcpFlags.mk 0x5018).get_flag .syn ∧
    ((TcpFlags.mk 0x5018).set_flag .ack true).get_data_offset =
      (TcpFlags.mk 0x5018).get_data_offset ∧
    ((TcpFlags.mk 0x5018).set_data_offset 8).2 = .ok 8 ∧
    (((TcpFlags.mk 0x5018).set_data_offset 8).1).get_data_offset = 8 ∧
    (TcpFlags.mk 0x5018).set_data_offset 16 = (TcpFlags.mk 0x5018, .error 16) := by
  have h := claim_C10 0x5018 (by decide) .ack .syn true 8
  have h2 := claim_C10 0x5018 (by decide) .ack .syn true 16
  exact ⟨h.1, h.2.1 (by decide), h.2.2.1, (h.2.2.2.1 (by decide)).1,
    (h.2.2.2.1 (by decide)).2, h2.2.2.2.2 (by decide)⟩

end BinatorNet
